import Mathlib

/-
Verification of the mesacat evacuation simulation (src/mesacat/agent.py,
src/mesacat/model.py) against its natural-language specification.

The Python code is shallowly embedded: pure data is carried in structures,
fallible operations (list indexing, dict lookup, assertions) return
`Except Err`, and the unbounded `while` loop of `EvacuationAgent.step` is
given explicit fuel (fuel exhaustion is a distinguished error that never
occurs in the concrete examples below).  Rational numbers stand in for the
Python floats; none of the verified claims depends on rounding behaviour.
-/

/-- Errors a Python execution of the embedded fragment can raise:
`indexErr` (sequence index out of range), `keyErr` (missing key / node
lookup, including the `TypeError` from subscripting a `None`
`get_edge_data` result), `assertionErr` (a failed `assert` in
`EvacuationModel.__init__`), and `fuelExhausted` (artifact of bounding the
`while` loop in `EvacuationAgent.step`; not a Python behaviour). -/
inductive Err where
  | indexErr
  | keyErr
  | assertionErr
  | fuelExhausted
deriving DecidableEq, Repr

/-- State of one `EvacuationAgent` (src/mesacat/agent.py, `__init__` lines
22-34).  `reroute_count` is an `Int` because the code initialises it to -1. -/
structure EvacuationAgent where
  route : List Nat
  route_index : Nat
  speed : ℚ
  distance_along_edge : ℚ
  pos : Nat
  evacuated : Bool
  stranded : Bool
  reroute_count : Int
  lat : Option ℚ
  lon : Option ℚ
  highway : Option Nat
deriving DecidableEq, Repr

/-- The road network shared by the model: the node index of `self.nodes`
(in index order), node coordinates (`geometry.x` / `geometry.y`), and for
each node pair the `length` and `osmid` attributes of the first parallel
edge returned by `G.get_edge_data(u, v)[0]` (`none` when no edge exists).
The same graph backs both the `networkx` object `G` and its `igraph`
duplicate used for routing. -/
structure Network where
  nodes : List Nat
  nodeX : Nat → ℚ
  nodeY : Nat → ℚ
  edgeLength : Nat → Nat → Option ℚ
  edgeOsmid : Nat → Nat → Option Nat

/-- Edge length lookup on the undirected graph: `G.get_edge_data` answers
for both orientations of an edge. -/
def edgeLen (net : Network) (u v : Nat) : Option ℚ :=
  match net.edgeLength u v with
  | some L => some L
  | none => net.edgeLength v u

/-- `osmid` attribute of the edge, both orientations. -/
def edgeOsm (net : Network) (u v : Nat) : Option Nat :=
  match net.edgeOsmid u v with
  | some o => some o
  | none => net.edgeOsmid v u

/-- `self.model.nodes.loc[n]` geometry lookup; `none` models the `KeyError`
raised for a node id absent from the node table. -/
def nodeXY (net : Network) (n : Nat) : Option (ℚ × ℚ) :=
  if net.nodes.contains n then some (net.nodeX n, net.nodeY n) else none

/-- Strict comparison of optional distances, `none` playing the role of the
`inf` returned by `igraph.shortest_paths_dijkstra` for unreachable targets. -/
def oLt : Option ℚ → Option ℚ → Bool
  | some a, some b => a < b
  | some _, none => true
  | none, _ => false

/-- Non-strict companion of `oLt`. -/
def oLe : Option ℚ → Option ℚ → Bool
  | some a, some b => a ≤ b
  | none, some _ => false
  | _, none => true

/-- Minimum of two optional distances (`none` = infinity). -/
def minO (x y : Option ℚ) : Option ℚ := if oLt y x then y else x

/-- Shortest-path distance from `src` using at most `fuel` edges, by
Bellman-Ford style relaxation over the node list.  With
`fuel = net.nodes.length` this is the model of the distances returned by
`igraph.shortest_paths_dijkstra(..., weights='length')`: edge lengths are
non-negative in the intended inputs, so a shortest path needs no more
edges than there are nodes. -/
def spDistAux (net : Network) : Nat → Nat → Nat → Option ℚ
  | 0, src, v => if v = src then some 0 else none
  | fuel + 1, src, v =>
    net.nodes.foldl
      (fun acc u =>
        match edgeLen net u v, spDistAux net fuel src u with
        | some L, some du => minO acc (some (du + L))
        | _, _ => acc)
      (spDistAux net fuel src v)

/-- Model of the `igraph` shortest-path distance from `src` to `v`. -/
def spDist (net : Network) (src v : Nat) : Option ℚ :=
  spDistAux net net.nodes.length src v

/-- `u` is a predecessor of `v` on some shortest path from `src`. -/
def isPred (net : Network) (src v u : Nat) : Bool :=
  if u = v then false
  else
    match edgeLen net u v, spDist net src u, spDist net src v with
    | some L, some du, some dv => du + L == dv
    | _, _, _ => false

/-- Back-tracking extraction of one shortest path, ending at `v`;
returns `[]` when no predecessor chain to `src` is found within `fuel`
steps. -/
def buildPath (net : Network) (src : Nat) : Nat → Nat → List Nat
  | 0, _ => []
  | fuel + 1, v =>
    if v = src then [src]
    else
      match net.nodes.find? (fun u => isPred net src v u) with
      | none => []
      | some u => buildPath net src fuel u ++ [v]

/-- Model of `igraph.get_shortest_paths(source, target, weights='length')[0]`:
the empty list for an unreachable target (igraph's behaviour), otherwise a
shortest node path from `src` to `target` inclusive. -/
def getShortestPath (net : Network) (src target : Nat) : List Nat :=
  match spDist net src target with
  | none => []
  | some _ => buildPath net src net.nodes.length target

/-- Index of the first minimal element, accumulator form. -/
def argminAux : List (Option ℚ) → Nat → Option ℚ → Nat → Nat
  | [], _, _, best => best
  | d :: ds, i, cur, best =>
    if oLt d cur then argminAux ds (i + 1) d i else argminAux ds (i + 1) cur best

/-- Model of `np.argmin`: index of the first occurrence of the minimum
(`0` on the empty list, matching no call site). -/
def argminIdx : List (Option ℚ) → Nat
  | [] => 0
  | d :: ds => argminAux ds 1 d 0

/-- Lines 56-59 of src/mesacat/agent.py: the candidate target chosen by
`update_route`, namely `targets[int(np.argmin(target_distances))]`. -/
def selectTarget (net : Network) (src : Nat) (targets : List Nat) : Option Nat :=
  targets.get? (argminIdx (targets.map (fun t => spDist net src t)))

/-- State of the `EvacuationModel` (src/mesacat/model.py).  `agents` is the
scheduler's agent list; the `NetworkGrid` is recovered from the agents'
`pos` fields, which mesa keeps in sync with grid placement.
`target_capacity` is read by `EvacuationAgent.step` (line 92) but its
initialisation is absent from the sources; the field is
Modelled from the spec: "a set of target node ids and one shared capacity
limit" (one non-negative integer fixed at construction). -/
structure EvacuationModel where
  net : Network
  target_capacity : Nat
  target_nodes : List Nat
  agents : List EvacuationAgent

/-- `grid.get_cell_list_contents([node])`: every agent currently placed at
`node`, whatever its status. -/
def cellCount (agents : List EvacuationAgent) (node : Nat) : Nat :=
  (agents.filter (fun b => b.pos == node)).length

/-- `EvacuationAgent.distance_to_next_node` (agent.py lines 66-71): length
of the edge from `route[route_index]` to `route[route_index+1]` minus the
distance already travelled along it; records the edge's `osmid` in
`highway` as a side effect. -/
def distance_to_next_node (net : Network) (a : EvacuationAgent) :
    Except Err (ℚ × EvacuationAgent) :=
  match a.route.get? a.route_index, a.route.get? (a.route_index + 1) with
  | some u, some v =>
    match edgeLen net u v with
    | some L =>
      let a' :=
        match edgeOsm net u v with
        | some o => { a with highway := some o }
        | none => a
      Except.ok (L - a.distance_along_edge, a')
    | none => Except.error Err.keyErr
  | _, _ => Except.error Err.indexErr

/-- `EvacuationAgent.update_location` (agent.py lines 36-46): linear
interpolation of `lat`/`lon` between the current and next route node. -/
def update_location (net : Network) (a : EvacuationAgent) :
    Except Err EvacuationAgent :=
  match distance_to_next_node net a with
  | Except.error e => Except.error e
  | Except.ok (d, a1) =>
    match a1.route.get? a1.route_index with
    | none => Except.error Err.indexErr
    | some o =>
      match nodeXY net o with
      | none => Except.error Err.keyErr
      | some oxy =>
        if d + a1.distance_along_edge = 0 then
          Except.ok { a1 with lat := some oxy.2, lon := some oxy.1 }
        else
          match a1.route.get? (a1.route_index + 1) with
          | none => Except.error Err.indexErr
          | some dn =>
            match nodeXY net dn with
            | none => Except.error Err.keyErr
            | some dxy =>
              Except.ok { a1 with
                lat := some (a1.distance_along_edge / (d + a1.distance_along_edge) * dxy.2 +
                  (1 - a1.distance_along_edge / (d + a1.distance_along_edge)) * oxy.2),
                lon := some (a1.distance_along_edge / (d + a1.distance_along_edge) * dxy.1 +
                  (1 - a1.distance_along_edge / (d + a1.distance_along_edge)) * oxy.1) }

/-- `EvacuationAgent.update_route` (agent.py lines 48-64).  With an empty
target series the agent is marked stranded and nothing else changes.
Otherwise every target id and the source are located in the node index
(`get_loc`, a `KeyError` when absent), the distances to all candidates are
computed, `np.argmin` picks the first nearest candidate, and the agent
adopts the (possibly empty, if unreachable) shortest path to it, resetting
`route_index` and incrementing `reroute_count`.  The positional
`get_loc`/`iloc` round-trip of the Python code is the identity on node ids
and is elided. -/
def update_route (m : EvacuationModel) (a : EvacuationAgent) :
    Except Err EvacuationAgent :=
  if m.target_nodes.length = 0 then
    Except.ok { a with stranded := true }
  else if !(m.target_nodes.all fun t => m.net.nodes.contains t) then
    Except.error Err.keyErr
  else if !(m.net.nodes.contains a.pos) then
    Except.error Err.keyErr
  else
    match selectTarget m.net a.pos m.target_nodes with
    | none => Except.error Err.indexErr
    | some t =>
      Except.ok { a with
        route := getShortestPath m.net a.pos t,
        route_index := 0,
        reroute_count := a.reroute_count + 1 }

/-- The `while` loop of `EvacuationAgent.step` (agent.py lines 82-106) for
the agent at index `i` of `m.agents`, with `dtt` the remaining movement
budget (`distance_to_travel`).  Each iteration whose remaining edge
distance fits in the budget advances `route_index`, moves the agent on the
grid and, on the final route node (lines 87-100, inline as in the source),
snaps the coordinates and runs the capacity check: a full target is
removed from the shared `model.target_nodes` and the route recomputed,
the loop continuing with the leftover budget unless the agent became
stranded; a non-full target evacuates the agent.  When the budget no
longer covers the remaining edge distance it is added to
`distance_along_edge` and the location is interpolated.  `fuel` bounds
the number of iterations. -/
def stepGo : Nat → EvacuationModel → Nat → EvacuationAgent → ℚ →
    Except Err (EvacuationModel × EvacuationAgent)
  | 0, _, _, _, _ => Except.error Err.fuelExhausted
  | fuel + 1, m, i, a, dtt =>
    match distance_to_next_node m.net a with
    | Except.error e => Except.error e
    | Except.ok (d2n, a1) =>
      if d2n ≤ dtt then
        let a2 := { a1 with route_index := a1.route_index + 1 }
        match a2.route.get? a2.route_index with
        | none => Except.error Err.indexErr
        | some newPos =>
          let a3 := { a2 with pos := newPos }
          if a3.route_index = a3.route.length - 1 then
            match nodeXY m.net a3.pos with
            | none => Except.error Err.keyErr
            | some xy =>
              let a4 := { a3 with lat := some xy.2, lon := some xy.1 }
              if m.target_capacity < cellCount (m.agents.set i a4) a4.pos then
                let m' := { m with
                  target_nodes := m.target_nodes.filter (fun t => t ≠ a4.pos) }
                match update_route m' a4 with
                | Except.error e => Except.error e
                | Except.ok a5 =>
                  if a5.stranded then Except.ok (m', a5)
                  else stepGo fuel m' i { a5 with distance_along_edge := 0 }
                    (dtt - d2n)
              else Except.ok (m, { a4 with evacuated := true })
          else
            stepGo fuel m i { a3 with distance_along_edge := 0 } (dtt - d2n)
      else
        match update_location m.net
            { a1 with distance_along_edge := a1.distance_along_edge + dtt } with
        | Except.error e => Except.error e
        | Except.ok a' => Except.ok (m, a')

/-- Lines 87-100 of agent.py as a standalone function: the agent `a` has
just arrived at the final node of its route (`a.pos` the final node).
Its coordinates snap to the node; if the grid cell already holds more
than `target_capacity` agents (the arriving agent included), the node is
removed from the shared `model.target_nodes` series and the route is
recomputed, the movement loop continuing with the remaining budget `dtt`
unless the agent became stranded; otherwise the agent evacuates.
`stepGo_arrival` below proves this is exactly what the loop does on
arrival. -/
def reachFinal (fuel : Nat) (m : EvacuationModel) (i : Nat)
    (a : EvacuationAgent) (dtt : ℚ) :
    Except Err (EvacuationModel × EvacuationAgent) :=
  match nodeXY m.net a.pos with
  | none => Except.error Err.keyErr
  | some xy =>
    let a1 := { a with lat := some xy.2, lon := some xy.1 }
    if m.target_capacity < cellCount (m.agents.set i a1) a1.pos then
      let m' := { m with
        target_nodes := m.target_nodes.filter (fun t => t ≠ a1.pos) }
      match update_route m' a1 with
      | Except.error e => Except.error e
      | Except.ok a4 =>
        if a4.stranded then Except.ok (m', a4)
        else stepGo fuel m' i { a4 with distance_along_edge := 0 } dtt
    else
      Except.ok (m, { a1 with evacuated := true })

/-- Iteration bound for the `while` loop of one `step` call: between two
reroutes the loop advances through the current route, every route produced
by `update_route` has at most `net.nodes.length + 1` nodes, and at most
`target_nodes.length + 1` reroutes can occur within one call. -/
def stepFuel (m : EvacuationModel) (a : EvacuationAgent) : Nat :=
  a.route.length + (m.target_nodes.length + 2) * (m.net.nodes.length + 2) + 2

/-- `EvacuationAgent.step` (agent.py lines 73-106) for the agent at index
`i`: a no-op for an evacuated or stranded agent, otherwise the movement
loop with budget `speed / 60 / 60 * 10 * 1000` metres, the final agent
state being written back into the model's agent list.  An out-of-range
index (which the scheduler never produces) is a no-op. -/
def stepAt (i : Nat) (m : EvacuationModel) : Except Err EvacuationModel :=
  match m.agents.get? i with
  | none => Except.ok m
  | some a =>
    if a.evacuated || a.stranded then Except.ok m
    else
      match stepGo (stepFuel m a) m i a (a.speed / 60 / 60 * 10 * 1000) with
      | Except.error e => Except.error e
      | Except.ok (m', a') =>
        Except.ok { m' with agents := m'.agents.set i a' }

/-- One scheduler tick (`RandomActivation.step`): `step` every agent once
in the shuffled order `order` (the shuffle itself is a seeded permutation
supplied externally to keep the embedding deterministic). -/
def modelStep (order : List Nat) (m : EvacuationModel) :
    Except Err EvacuationModel :=
  order.foldlM (fun mm i => stepAt i mm) m

/-- The `evacuated` model reporter (model.py lines 142-147):
`sum(len(grid.G.nodes[t]['agent']) for t in set(target_nodes))`, i.e. the
number of agents currently placed at some target node, of any status. -/
def collectEvac (m : EvacuationModel) : Nat :=
  (m.target_nodes.dedup.map (fun t => cellCount m.agents t)).sum

/-- Loop of `EvacuationModel.run` (model.py lines 154-170): advance a tick
(`EvacuationModel.step` = scheduler tick + data collection), append the
collected `evacuated` statistic, and stop early as soon as it equals the
total number of scheduled agents. -/
def runAux (orders : Nat → List Nat) (k : Nat) (m : EvacuationModel)
    (snaps : List Nat) : Nat → Except Err (EvacuationModel × List Nat)
  | 0 => Except.ok (m, snaps)
  | r + 1 =>
    match modelStep (orders k) m with
    | Except.error e => Except.error e
    | Except.ok m' =>
      let snaps' := snaps ++ [collectEvac m']
      if collectEvac m' = m'.agents.length then Except.ok (m', snaps')
      else runAux orders (k + 1) m' snaps' r

/-- `EvacuationModel.run(steps)`: one data collection before the loop,
then at most `steps` ticks with the early-exit test above.  The returned
list holds the `evacuated` statistic of every snapshot pushed to the data
collector, in order. -/
def runModel (orders : Nat → List Nat) (m : EvacuationModel) (steps : Nat) :
    Except Err (EvacuationModel × List Nat) :=
  runAux orders 0 m [collectEvac m] steps

/-- Number of agents whose status is Evacuated. -/
def countEvac (m : EvacuationModel) : Nat :=
  (m.agents.filter (fun a => a.evacuated)).length

/-- Number of agents whose status is Stranded. -/
def countStranded (m : EvacuationModel) : Nat :=
  (m.agents.filter (fun a => a.stranded)).length

/-- Number of agents still Active (neither flag set). -/
def countActive (m : EvacuationModel) : Nat :=
  (m.agents.filter (fun a => !a.evacuated && !a.stranded)).length

/-- Squared Euclidean distance from node `u` to a point, the metric of the
`cKDTree` nearest-node queries of `EvacuationModel.__init__`. -/
def sqDist (net : Network) (u : Nat) (p : ℚ × ℚ) : ℚ :=
  (net.nodeX u - p.1) * (net.nodeX u - p.1) +
    (net.nodeY u - p.2) * (net.nodeY u - p.2)

/-- `nodes_tree.query(p)` (model.py lines 91, 109-113): the node of the
original node table nearest to `p` (ties resolved to the earlier node, one
deterministic choice of the library's); `none` on an empty node table. -/
def nearestNode (net : Network) (p : ℚ × ℚ) : Option Nat :=
  match net.nodes with
  | [] => none
  | n :: ns =>
    some (ns.foldl (fun best u =>
      if sqDist net u p < sqDist net best p then u else best) n)

/-- Lines 115-121 of model.py: each target outside the hazard zone whose
`osmid` is not yet a graph node is added as a new node carrying the
target's coordinates, linked by a zero-length edge to the nearest node of
the ORIGINAL node table (the `cKDTree` is built before this loop). -/
def augment (net0 : Network) (ts : List (Nat × ℚ × ℚ)) : Network :=
  ts.foldl
    (fun net t =>
      if net.nodes.contains t.1 then net
      else
        match nearestNode net0 t.2 with
        | none => net
        | some nn =>
          { nodes := net.nodes ++ [t.1],
            nodeX := fun v => if v = t.1 then t.2.1 else net.nodeX v,
            nodeY := fun v => if v = t.1 then t.2.2 else net.nodeY v,
            edgeLength := fun u v =>
              if (u = nn ∧ v = t.1) ∨ (u = t.1 ∧ v = nn) then some 0
              else net.edgeLength u v,
            edgeOsmid := net.edgeOsmid })
    net0

/-- A freshly constructed `EvacuationAgent` (agent.py lines 22-34) placed
at its start node. -/
def newAgent (startNode : Nat) : EvacuationAgent :=
  { route := [], route_index := 0, speed := 3, distance_along_edge := 0,
    pos := startNode, evacuated := false, stranded := false,
    reroute_count := -1, lat := none, lon := none, highway := none }

/-- Lines 136-140 of model.py: create one agent per start node, add it to
the scheduler, place it on the grid and compute its initial route. -/
def createAgents (m : EvacuationModel) : List Nat → Except Err EvacuationModel
  | [] => Except.ok m
  | sn :: rest =>
    match update_route m (newAgent sn) with
    | Except.error e => Except.error e
    | Except.ok a => createAgents { m with agents := m.agents ++ [a] } rest

/-- Construction inputs that the ingestion collaborators deliver: agent
start locations, target `osmid`s with their locations, and the spatial
predicate "intersects the hazard zone" (the `sjoin` with the hazard table
followed by the index de-duplication amounts to this membership test). -/
structure BuildInput where
  starts : List (ℚ × ℚ)
  targets : List (Nat × ℚ × ℚ)
  inHazard : ℚ × ℚ → Bool

/-- The targets kept by construction: those NOT intersecting the hazard
zone (model.py lines 102-105). -/
def targetsOutside (inp : BuildInput) : List (Nat × ℚ × ℚ) :=
  inp.targets.filter (fun t => !(inp.inHazard t.2))

/-- The vectorized `nodes_tree.query` of model.py lines 109-110: nearest
node of every start location (`none` only on an empty node table, where
the `cKDTree` query itself fails). -/
def snapAll (net0 : Network) : List (ℚ × ℚ) → Option (List Nat)
  | [] => some []
  | p :: ps =>
    match nearestNode net0 p, snapAll net0 ps with
    | some n, some ns => some (n :: ns)
    | _, _ => none

/-- `EvacuationModel.__init__` (model.py lines 48-147), state-relevant
part: keep the start locations inside the hazard zone (assert some exist),
keep the targets outside it (assert some exist), snap the kept starts to
their nearest nodes, augment the graph with off-graph targets, then create
and route the agents.  File output, CRS bookkeeping and the data-collector
setup carry no simulation state and are elided. -/
def buildModel (net0 : Network) (cap : Nat) (inp : BuildInput) :
    Except Err EvacuationModel :=
  let startsIn := inp.starts.filter inp.inHazard
  if startsIn.length = 0 then Except.error Err.assertionErr
  else
    let tOut := targetsOutside inp
    if tOut.length = 0 then Except.error Err.assertionErr
    else
      match snapAll net0 startsIn with
      | none => Except.error Err.keyErr
      | some startNodes =>
        createAgents
          { net := augment net0 tOut, target_capacity := cap,
            target_nodes := tOut.map (fun t => t.1), agents := [] }
          startNodes

/-- States reachable from `m` by a (possibly empty) sequence of successful
agent `step()` calls, in any order and multiplicity. -/
inductive Reachable : EvacuationModel → EvacuationModel → Prop
  | refl (m : EvacuationModel) : Reachable m m
  | tail {m m1 m2 : EvacuationModel} (i : Nat) :
      Reachable m m1 → stepAt i m1 = Except.ok m2 → Reachable m m2

/-- Projection used by concrete evaluations: the agent list of a
successful construction or step result. -/
def agentsOf (e : Except Err EvacuationModel) : List EvacuationAgent :=
  match e with
  | Except.ok m => m.agents
  | Except.error _ => []

/-- Projection: the shared target list of a successful result. -/
def tgtsOf (e : Except Err EvacuationModel) : List Nat :=
  match e with
  | Except.ok m => m.target_nodes
  | Except.error _ => []

/-- Projection: the agent at index `i` of a successful result. -/
def agentAfter (e : Except Err EvacuationModel) (i : Nat) :
    Option EvacuationAgent :=
  match e with
  | Except.ok m => m.agents.get? i
  | Except.error _ => none

/-- Projection: snapshot list of a successful `runModel` result. -/
def snapsOf (e : Except Err (EvacuationModel × List Nat)) : List Nat :=
  match e with
  | Except.ok r => r.2
  | Except.error _ => []

/-! Concrete instances used by the counterexamples and witnesses below. -/

/-- Three-node line network: an edge 0-1 of length 5, an edge 1-2 of
length 20, node 2's x-coordinate equal to its id, all y-coordinates 0. -/
def lineNet : Network :=
  { nodes := [0, 1, 2],
    nodeX := fun n => (n : ℚ),
    nodeY := fun _ => 0,
    edgeLength := fun u v =>
      if u = 0 ∧ v = 1 then some 5
      else if u = 1 ∧ v = 2 then some 20
      else none,
    edgeOsmid := fun _ _ => none }

/-- Two-node network with a single edge 0-1 of length 5. -/
def pairNet : Network :=
  { nodes := [0, 1],
    nodeX := fun n => (n : ℚ),
    nodeY := fun _ => 0,
    edgeLength := fun u v => if u = 0 ∧ v = 1 then some 5 else none,
    edgeOsmid := fun _ _ => none }

/-- Network for the unreachable-target scenario: an edge 0-1 of length 5
and an isolated node 2. -/
def isolNet : Network :=
  { nodes := [0, 1, 2],
    nodeX := fun n => (n : ℚ),
    nodeY := fun _ => 0,
    edgeLength := fun u v => if u = 0 ∧ v = 1 then some 5 else none,
    edgeOsmid := fun _ _ => none }

/-- An agent standing at node `p`, about to traverse `route` from its
head, with `reroute_count` already at 0 (as after the construction-time
`update_route`). -/
def mkActive (p : Nat) (route : List Nat) : EvacuationAgent :=
  { route := route, route_index := 0, speed := 3, distance_along_edge := 0,
    pos := p, evacuated := false, stranded := false, reroute_count := 0,
    lat := none, lon := none, highway := none }

/-- C1 scenario: the agent sits at the isolated node 2 and the only
candidate target, node 1, is unreachable from it. -/
def unreachableM : EvacuationModel :=
  { net := isolNet, target_capacity := 1, target_nodes := [1],
    agents := [] }

/-- The agent of the C1 scenario before its route computation. -/
def unreachableA : EvacuationAgent := mkActive 2 []

/-- C2 scenario: a bystander agent already occupies target node 1
(Active, not Evacuated) while the stepped agent travels 0 → 1;
capacity 1. -/
def fullCellM : EvacuationModel :=
  { net := pairNet, target_capacity := 1, target_nodes := [1],
    agents := [mkActive 1 [1], mkActive 0 [0, 1]] }

/-- C3 scenario: a single agent travelling 0 → 1 toward target 1 with
capacity 0 and a fallback target 2. -/
def sharedM : EvacuationModel :=
  { net := lineNet, target_capacity := 0, target_nodes := [1, 2],
    agents := [mkActive 0 [0, 1]] }

/-- A stranded agent at node 0 (empty target list). -/
def strandedA : EvacuationAgent :=
  { route := [], route_index := 0, speed := 3, distance_along_edge := 0,
    pos := 0, evacuated := false, stranded := true, reroute_count := 0,
    lat := none, lon := none, highway := none }

/-- C4 scenario: one stranded agent, no targets left: the positional
`evacuated` statistic is 0 forever while every agent is terminal. -/
def graceM : EvacuationModel :=
  { net := pairNet, target_capacity := 1, target_nodes := [],
    agents := [strandedA] }

/-- C5 scenario: the agent travels 0 → 1 → 2, where node 1 is a target it
merely passes through. -/
def passThroughM : EvacuationModel :=
  { net := lineNet, target_capacity := 5, target_nodes := [2, 1],
    agents := [mkActive 0 [0, 1, 2]] }

/-- An evacuated agent resting at node 1. -/
def evacuatedA : EvacuationAgent :=
  { route := [0, 1], route_index := 1, speed := 3, distance_along_edge := 0,
    pos := 1, evacuated := true, stranded := false, reroute_count := 0,
    lat := some 0, lon := some 1, highway := none }

/-- C6 scenario: one evacuated and one stranded agent. -/
def terminalM : EvacuationModel :=
  { net := pairNet, target_capacity := 1, target_nodes := [1],
    agents := [evacuatedA, strandedA] }

/-- Single-node network used by the construction scenarios. -/
def dotNet : Network :=
  { nodes := [0],
    nodeX := fun _ => 0,
    nodeY := fun _ => 0,
    edgeLength := fun _ _ => none,
    edgeOsmid := fun _ _ => none }

/-- Construction input whose single start lies in the hazard zone
(x = 0) and whose single target, osmid 5 at (1, 0), lies outside it:
target 5 is off-graph, so construction links it to node 0 by a
zero-length edge. -/
def zeroEdgeInput : BuildInput :=
  { starts := [(0, 0)],
    targets := [(5, (1, 0))],
    inHazard := fun p => p.1 == 0 }

/-- Construction input with no start location inside the hazard zone. -/
def noHazardInput : BuildInput :=
  { starts := [(1, 0)],
    targets := [(5, (1, 0))],
    inHazard := fun p => p.1 == 0 }

/-- Construction input where every target intersects the hazard zone. -/
def noTargetInput : BuildInput :=
  { starts := [(0, 0)],
    targets := [(5, (0, 0))],
    inHazard := fun p => p.1 == 0 }

/-- Fork network for the tie-break scenario: edges 0-1 and 0-2, both of
length 5. -/
def forkNet : Network :=
  { nodes := [0, 1, 2],
    nodeX := fun n => (n : ℚ),
    nodeY := fun _ => 0,
    edgeLength := fun u v =>
      if u = 0 ∧ (v = 1 ∨ v = 2) then some 5 else none,
    edgeOsmid := fun _ _ => none }

/-- C9 scenario: targets 1 and 2 are equidistant from node 0. -/
def forkM : EvacuationModel :=
  { net := forkNet, target_capacity := 1, target_nodes := [1, 2],
    agents := [] }

deriving instance DecidableEq for Except

/-- Projection: the error of a failed computation. -/
def errOf {A : Type} : Except Err A → Option Err
  | Except.error e => some e
  | Except.ok _ => none

/-- The C1 agent after its (successful but useless) route computation:
`update_route` returns it with an empty route and `stranded = false`. -/
def unreachableA' : EvacuationAgent := { unreachableA with reroute_count := 1 }

/-! Helper lemmas about the embedded operations. -/

/-- What `distance_to_next_node` computes and what it leaves untouched. -/
theorem d2n_spec (net : Network) (a : EvacuationAgent) (d : ℚ)
    (a1 : EvacuationAgent)
    (h : distance_to_next_node net a = Except.ok (d, a1)) :
    (∃ u v L, a.route.get? a.route_index = some u ∧
      a.route.get? (a.route_index + 1) = some v ∧ edgeLen net u v = some L ∧
      d = L - a.distance_along_edge) ∧
    a1.route = a.route ∧ a1.route_index = a.route_index ∧
    a1.distance_along_edge = a.distance_along_edge ∧ a1.pos = a.pos ∧
    a1.evacuated = a.evacuated ∧ a1.stranded = a.stranded ∧
    a1.reroute_count = a.reroute_count ∧ a1.speed = a.speed ∧
    a1.lat = a.lat ∧ a1.lon = a.lon := by
  unfold distance_to_next_node at h
  split at h
  case h_1 u v hu hv =>
    split at h
    case h_1 L hL =>
      split at h
      all_goals
        cases h
        exact ⟨⟨u, v, L, hu, hv, hL, rfl⟩, rfl, rfl, rfl, rfl, rfl, rfl,
          rfl, rfl, rfl, rfl⟩
    case h_2 => cases h
  case h_2 => cases h

/-- `update_location` only rewrites the coordinates (and, through its
inner `distance_to_next_node` call, `highway`). -/
theorem update_location_spec (net : Network) (a a' : EvacuationAgent)
    (h : update_location net a = Except.ok a') :
    a'.route = a.route ∧ a'.route_index = a.route_index ∧
    a'.distance_along_edge = a.distance_along_edge ∧ a'.pos = a.pos ∧
    a'.evacuated = a.evacuated ∧ a'.stranded = a.stranded ∧
    a'.reroute_count = a.reroute_count ∧ a'.speed = a.speed := by
  unfold update_location at h
  split at h
  case h_1 => cases h
  case h_2 d a1 heq =>
    have h1 := d2n_spec net a d a1 heq
    split at h
    case h_1 => cases h
    case h_2 o ho =>
      split at h
      case h_1 => cases h
      case h_2 xy hxy =>
        split at h
        · cases h
          exact ⟨h1.2.1, h1.2.2.1, h1.2.2.2.1, h1.2.2.2.2.1, h1.2.2.2.2.2.1,
            h1.2.2.2.2.2.2.1, h1.2.2.2.2.2.2.2.1, h1.2.2.2.2.2.2.2.2.1⟩
        · split at h
          case h_1 => cases h
          case h_2 dn hdn =>
            split at h
            case h_1 => cases h
            case h_2 dxy hdxy =>
              cases h
              exact ⟨h1.2.1, h1.2.2.1, h1.2.2.2.1, h1.2.2.2.2.1,
                h1.2.2.2.2.2.1, h1.2.2.2.2.2.2.1, h1.2.2.2.2.2.2.2.1,
                h1.2.2.2.2.2.2.2.2.1⟩

/-- Case analysis of a successful `update_route`: either the target list
was empty and the agent is only marked stranded, or a target was selected
and the agent adopted the shortest path to it with `reroute_count`
incremented. -/
theorem update_route_spec (m : EvacuationModel) (a a' : EvacuationAgent)
    (h : update_route m a = Except.ok a') :
    (m.target_nodes = [] ∧ a' = { a with stranded := true }) ∨
    (m.target_nodes ≠ [] ∧ ∃ t, selectTarget m.net a.pos m.target_nodes = some t ∧
      a' = { a with
              route := getShortestPath m.net a.pos t,
              route_index := 0,
              reroute_count := a.reroute_count + 1 }) := by
  unfold update_route at h
  split at h
  case isTrue hlen =>
    cases h
    exact Or.inl ⟨List.length_eq_zero.mp hlen, rfl⟩
  case isFalse hlen =>
    split at h
    case isTrue => cases h
    case isFalse =>
      split at h
      case isTrue => cases h
      case isFalse =>
        split at h
        case h_1 => cases h
        case h_2 t ht =>
          cases h
          exact Or.inr ⟨fun hne => hlen (by simp [hne]), t, ht, rfl⟩

/-- A successful `update_route` never decreases `reroute_count`. -/
theorem update_route_count (m : EvacuationModel) (a a' : EvacuationAgent)
    (h : update_route m a = Except.ok a') :
    a.reroute_count ≤ a'.reroute_count := by
  rcases update_route_spec m a a' h with ⟨_, rfl⟩ | ⟨_, t, _, rfl⟩ <;> simp

/-- `update_route` leaves position, flags other than `stranded`, speed and
`distance_along_edge` unchanged. -/
theorem update_route_frame (m : EvacuationModel) (a a' : EvacuationAgent)
    (h : update_route m a = Except.ok a') :
    a'.pos = a.pos ∧ a'.evacuated = a.evacuated ∧ a'.speed = a.speed ∧
    a'.distance_along_edge = a.distance_along_edge := by
  rcases update_route_spec m a a' h with ⟨_, rfl⟩ | ⟨_, t, _, rfl⟩ <;>
    exact ⟨rfl, rfl, rfl, rfl⟩

/-- Frame conditions of the movement loop: a successful `stepGo` leaves
the agent list, the network and the capacity untouched, only ever shrinks
the shared target list (by the `filter` of line 93 of agent.py), and the
acting agent's `reroute_count` never decreases. -/
theorem stepGo_effects : ∀ (fuel : Nat) (m : EvacuationModel) (i : Nat)
    (a : EvacuationAgent) (dtt : ℚ) (m' : EvacuationModel)
    (a' : EvacuationAgent),
    stepGo fuel m i a dtt = Except.ok (m', a') →
    m'.agents = m.agents ∧ m'.net = m.net ∧
    m'.target_capacity = m.target_capacity ∧
    List.Sublist m'.target_nodes m.target_nodes ∧
    a.reroute_count ≤ a'.reroute_count
  | 0, m, i, a, dtt, m', a', h => by simp [stepGo] at h
  | fuel + 1, m, i, a, dtt, m', a', h => by
    simp only [stepGo] at h
    split at h
    case h_1 => cases h
    case h_2 d2n a1 hd2n =>
      have ha1 := d2n_spec m.net a d2n a1 hd2n
      split at h
      · split at h
        case h_1 => cases h
        case h_2 newPos hnp =>
          split at h
          · split at h
            case h_1 => cases h
            case h_2 xy hxy =>
              split at h
              · split at h
                case h_1 => cases h
                case h_2 a5 hup =>
                  have hcnt := update_route_count _ _ _ hup
                  split at h
                  · cases h
                    refine ⟨rfl, rfl, rfl, List.filter_sublist _, ?_⟩
                    calc a.reroute_count = a1.reroute_count := (ha1.2.2.2.2.2.2.2.1).symm
                      _ ≤ a'.reroute_count := hcnt
                  · have ih := stepGo_effects fuel _ i _ _ _ _ h
                    refine ⟨ih.1, ih.2.1, ih.2.2.1,
                      List.Sublist.trans ih.2.2.2.1 (List.filter_sublist _), ?_⟩
                    calc a.reroute_count = a1.reroute_count := (ha1.2.2.2.2.2.2.2.1).symm
                      _ ≤ a5.reroute_count := hcnt
                      _ ≤ a'.reroute_count := ih.2.2.2.2
              · cases h
                exact ⟨rfl, rfl, rfl, List.Sublist.refl _,
                  le_of_eq (ha1.2.2.2.2.2.2.2.1).symm⟩
          · have ih := stepGo_effects fuel m i _ _ m' a' h
            refine ⟨ih.1, ih.2.1, ih.2.2.1, ih.2.2.2.1, ?_⟩
            calc a.reroute_count = a1.reroute_count := (ha1.2.2.2.2.2.2.2.1).symm
              _ ≤ a'.reroute_count := ih.2.2.2.2
      · split at h
        case h_1 => cases h
        case h_2 a2 hupd =>
          cases h
          have h2 := update_location_spec _ _ _ hupd
          exact ⟨rfl, rfl, rfl, List.Sublist.refl _,
            le_of_eq (h2.2.2.2.2.2.2.1.trans ha1.2.2.2.2.2.2.2.1).symm⟩

/-- Frame conditions of one agent `step()`: the network and capacity are
untouched, the shared target list only shrinks, the number of agents is
unchanged, and every agent other than the stepped one is untouched. -/
theorem stepAt_effects (i : Nat) (m m' : EvacuationModel)
    (h : stepAt i m = Except.ok m') :
    m'.net = m.net ∧ m'.target_capacity = m.target_capacity ∧
    List.Sublist m'.target_nodes m.target_nodes ∧
    m'.agents.length = m.agents.length ∧
    ∀ j, j ≠ i → m'.agents.get? j = m.agents.get? j := by
  unfold stepAt at h
  split at h
  case h_1 => cases h; exact ⟨rfl, rfl, List.Sublist.refl _, rfl, fun _ _ => rfl⟩
  case h_2 a ha =>
    split at h
    · cases h; exact ⟨rfl, rfl, List.Sublist.refl _, rfl, fun _ _ => rfl⟩
    · split at h
      case h_1 => cases h
      case h_2 m1 a1 hgo =>
        cases h
        have he := stepGo_effects _ _ _ _ _ _ _ hgo
        refine ⟨he.2.1, he.2.2.1, he.2.2.2.1, ?_, ?_⟩
        · simp [he.1]
        · intro j hj
          rw [List.get?_set_ne _ _ (by omega), he.1]

/-- Lines 76-77 of agent.py: `step()` of an evacuated or stranded agent
returns immediately, changing nothing. -/
theorem stepAt_terminal (i : Nat) (m : EvacuationModel) (a : EvacuationAgent)
    (hget : m.agents.get? i = some a)
    (hterm : a.evacuated = true ∨ a.stranded = true) :
    stepAt i m = Except.ok m := by
  have hb : (a.evacuated || a.stranded) = true := by
    rcases hterm with h | h <;> simp [h]
  unfold stepAt
  rw [hget]
  simp [hb]

/-- A terminal agent's record survives any sequence of steps unchanged. -/
theorem terminal_frozen (m m' : EvacuationModel) (i : Nat)
    (a : EvacuationAgent) (hr : Reachable m m')
    (hget : m.agents.get? i = some a)
    (hterm : a.evacuated = true ∨ a.stranded = true) :
    m'.agents.get? i = some a := by
  induction hr with
  | refl => exact hget
  | tail j hr hstep ih =>
    by_cases hj : j = i
    · subst hj
      rw [stepAt_terminal j _ a ih hterm] at hstep
      cases hstep
      exact ih
    · rw [(stepAt_effects j _ _ hstep).2.2.2.2 i fun hh => hj hh.symm]
      exact ih

/-- Projection: the collapsed edge length in a successful result's network. -/
def edgeLenOf (e : Except Err EvacuationModel) (u v : Nat) : Option ℚ :=
  match e with
  | Except.ok m => edgeLen m.net u v
  | Except.error _ => none

/-- Projection: the Evacuated-status head count of a successful run. -/
def runEvacCount (e : Except Err (EvacuationModel × List Nat)) : Option Nat :=
  match e with
  | Except.ok r => some (countEvac r.1)
  | Except.error _ => none

/-- C1: the claim says a route computation that finds no reachable
candidate is handled locally by marking the agent Stranded and is never
propagated as a fatal error.  The code only strands on an EMPTY candidate
list (agent.py lines 50-52): at the concrete model `unreachableM` the
candidate list is the nonempty `[1]`, node 1 is unreachable from the
agent's node 2, `update_route` succeeds with an empty route and
`stranded = false`, and the next `step()` raises an IndexError (from
`route[route_index]` in `distance_to_next_node`) that propagates out of
`step()` — the crash the spec says cannot happen. -/
theorem C1_unreachable_crash :
    spDist unreachableM.net unreachableA.pos 1 = none ∧
    unreachableM.target_nodes = [1] ∧
    update_route unreachableM unreachableA = Except.ok unreachableA' ∧
    unreachableA'.stranded = false ∧
    unreachableA'.route = [] ∧
    errOf (stepAt 0 { unreachableM with agents := [unreachableA'] }) =
      some Err.indexErr := by
  refine ⟨by with_unfolding_all decide, by with_unfolding_all decide,
    by with_unfolding_all decide, by with_unfolding_all decide,
    by with_unfolding_all decide, by with_unfolding_all decide⟩

/-- C2 counterexample: in `fullCellM` the stepped agent (index 1) reaches
target node 1, where the only other occupant is an ACTIVE bystander —
zero agents are Evacuated there, and 0 < capacity = 1, so the claim
demands Evacuated status.  The code instead counts every agent in the
grid cell (2 > 1) and reroutes, ending the step stranded, not
evacuated. -/
theorem C2_full_target_counterexample :
    (fullCellM.agents.filter (fun b => b.evacuated && b.pos == 1)).length = 0 ∧
    fullCellM.target_capacity = 1 ∧
    agentAfter (stepAt 1 fullCellM) 1 =
      some { route := [0, 1], route_index := 1, speed := 3,
             distance_along_edge := 0, pos := 1, evacuated := false,
             stranded := true, reroute_count := 0, lat := some 0,
             lon := some 1, highway := none } := by
  refine ⟨by with_unfolding_all decide, by with_unfolding_all decide,
    by with_unfolding_all decide⟩

/-- C3 counterexample: in `sharedM` the agent reroutes at the full target
node 1, and the removal hits the SHARED `model.target_nodes` list (line
93 of agent.py): after the step the model-level target list observed by
every agent has shrunk from `[1, 2]` to `[2]`, contradicting the claim
that the shared target configuration is unchanged. -/
theorem C3_shared_removal_counterexample :
    sharedM.target_nodes = [1, 2] ∧
    tgtsOf (stepAt 0 sharedM) = [2] ∧
    tgtsOf (stepAt 0 sharedM) ≠ sharedM.target_nodes := by
  refine ⟨by with_unfolding_all decide, by with_unfolding_all decide,
    by with_unfolding_all decide⟩

/-- C4 counterexample: in `graceM` the only agent is already Stranded, so
`evacuatedCount + strandedCount` equals the total agent count from the
first tick on (T = 1); the claim then demands that `run(10)` stop after
min(T+5, 10) = 6 ticks.  The code's only stopping rule compares the
positional `evacuated` statistic (0 here, forever) with the agent count,
so it runs all 10 ticks and collects 11 snapshots. -/
theorem C4_no_grace_counterexample :
    modelStep [0] graceM = Except.ok graceM ∧
    countEvac graceM + countStranded graceM = graceM.agents.length ∧
    snapsOf (runModel (fun _ => [0]) graceM 10) =
      [0, 0, 0, 0, 0, 0, 0, 0, 0, 0, 0] ∧
    (snapsOf (runModel (fun _ => [0]) graceM 10)).length - 1 ≠ min (1 + 5) 10 := by
  refine ⟨by with_unfolding_all rfl, by with_unfolding_all decide,
    by with_unfolding_all decide, by with_unfolding_all decide⟩

/-- C5 counterexample: in `passThroughM` the agent merely passes through
target node 1 on its way to node 2 and is still Active at the end of the
tick, yet the recorded `evacuated` statistic of that tick's snapshot is 1
(it counts grid occupancy of target nodes) while the number of agents
whose status is Evacuated is 0. -/
theorem C5_snapshot_counterexample :
    snapsOf (runModel (fun _ => [0]) passThroughM 1) = [0, 1] ∧
    runEvacCount (runModel (fun _ => [0]) passThroughM 1) = some 0 ∧
    (1 : Nat) ≠ 0 := by
  refine ⟨by with_unfolding_all decide, by with_unfolding_all decide,
    by decide⟩

/-- C6: Evacuated and Stranded are absorbing — a terminal agent's
`step()` succeeds as a no-op (the model is returned unchanged), and after
any further sequence of `step()` calls on any agents the terminal agent's
whole record (status, route, route_index, distance_along_edge, position,
and every other field) is identical. -/
theorem C6_terminal_absorbing (m m' : EvacuationModel) (i : Nat)
    (a : EvacuationAgent) (hget : m.agents.get? i = some a)
    (hterm : a.evacuated = true ∨ a.stranded = true) :
    stepAt i m = Except.ok m ∧
    (Reachable m m' → m'.agents.get? i = some a) :=
  ⟨stepAt_terminal i m a hget hterm,
    fun hr => terminal_frozen m m' i a hr hget hterm⟩

/-- Witness for C6 at the concrete `terminalM`. -/
theorem C6_terminal_absorbing_witness :
    stepAt 0 terminalM = Except.ok terminalM ∧
    (Reachable terminalM terminalM → terminalM.agents.get? 0 = some evacuatedA) :=
  C6_terminal_absorbing terminalM terminalM 0 evacuatedA (by rfl) (Or.inl rfl)

/-- C7 counterexample: construction itself (graph augmentation, model.py
lines 115-121) creates a zero-length edge from node 0 to the off-graph
target 5, and the constructed agent starts Active at node 0 with
`distance_along_edge = 0` on that very edge — the claimed strict
invariant `distanceAlongEdge < edge length` is already false at the first
tick boundary. -/
theorem C7_zero_length_counterexample :
    agentsOf (buildModel dotNet 1 zeroEdgeInput) = [mkActive 0 [0, 5]] ∧
    (mkActive 0 [0, 5]).evacuated = false ∧
    (mkActive 0 [0, 5]).stranded = false ∧
    (mkActive 0 [0, 5]).route.get? (mkActive 0 [0, 5]).route_index = some 0 ∧
    (mkActive 0 [0, 5]).route.get? ((mkActive 0 [0, 5]).route_index + 1) =
      some 5 ∧
    edgeLenOf (buildModel dotNet 1 zeroEdgeInput) 0 5 = some 0 ∧
    ¬((mkActive 0 [0, 5]).distance_along_edge < 0) := by
  refine ⟨by with_unfolding_all decide, by decide, by decide,
    by decide, by decide, by with_unfolding_all decide,
    by with_unfolding_all decide⟩

/-- The model state after the concrete step of the C3 scenario. -/
def sharedM' : EvacuationModel :=
  match stepAt 0 sharedM with
  | Except.ok m => m
  | Except.error _ => sharedM

/-- C3 amended: when an agent reroutes at a full target the removal hits
the single shared model-level target list, so it is observed by every
agent's later route computations; what a step CANNOT do is grow that
list, change the graph or the capacity, or touch any other agent's
record. -/
theorem C3_shared_frame (i : Nat) (m m' : EvacuationModel)
    (h : stepAt i m = Except.ok m') :
    m'.net = m.net ∧ m'.target_capacity = m.target_capacity ∧
    List.Sublist m'.target_nodes m.target_nodes ∧
    ∀ j, j ≠ i → m'.agents.get? j = m.agents.get? j :=
  ⟨(stepAt_effects i m m' h).1, (stepAt_effects i m m' h).2.1,
    (stepAt_effects i m m' h).2.2.1, (stepAt_effects i m m' h).2.2.2.2⟩

/-- Witness for the C3 amended theorem at the concrete `sharedM` step. -/
theorem C3_shared_frame_witness :
    List.Sublist sharedM'.target_nodes sharedM.target_nodes :=
  (C3_shared_frame 0 sharedM sharedM' (by with_unfolding_all rfl)).2.2.1

/-- Arrival at the final route node inside the movement loop is exactly
`reachFinal`: if the pending edge fits in the budget and the next node is
the last of the route, one iteration of `stepGo` hands over to
`reachFinal` with the moved agent and the leftover budget. -/
theorem stepGo_arrival (fuel : Nat) (m : EvacuationModel) (i : Nat)
    (a : EvacuationAgent) (dtt d2n : ℚ) (a1 : EvacuationAgent) (newPos : Nat)
    (hd : distance_to_next_node m.net a = Except.ok (d2n, a1))
    (hle : d2n ≤ dtt)
    (hnp : a1.route.get? (a1.route_index + 1) = some newPos)
    (hfin : a1.route_index + 1 = a1.route.length - 1) :
    stepGo (fuel + 1) m i a dtt =
      reachFinal fuel m i
        { a1 with route_index := a1.route_index + 1, pos := newPos }
        (dtt - d2n) := by
  simp only [stepGo, hd, if_pos hle]
  simp only [hnp]
  rw [if_pos hfin]
  rfl

/-- C2 amended: an Active agent arriving at the final node of its route
becomes Evacuated if and only if the grid cell's occupancy — ALL agents
currently placed at that node, of any status, the arriving agent itself
included — is at most the configured capacity; otherwise it attempts a
reroute: `reroute_count` increases, or the agent is marked Stranded with
`reroute_count` unchanged when the reduced candidate list is empty. -/
theorem C2_capacity_rule (fuel : Nat) (m : EvacuationModel) (i : Nat)
    (a : EvacuationAgent) (dtt : ℚ) (xy : ℚ × ℚ)
    (hxy : nodeXY m.net a.pos = some xy) :
    (cellCount (m.agents.set i { a with lat := some xy.2, lon := some xy.1 })
        a.pos ≤ m.target_capacity →
      reachFinal fuel m i a dtt =
        Except.ok (m, { a with
                         lat := some xy.2, lon := some xy.1,
                         evacuated := true })) ∧
    (m.target_capacity <
        cellCount (m.agents.set i { a with lat := some xy.2, lon := some xy.1 })
          a.pos →
      ∀ m' a', reachFinal fuel m i a dtt = Except.ok (m', a') →
        (a'.stranded = true ∧ a'.reroute_count = a.reroute_count) ∨
          a.reroute_count < a'.reroute_count) := by
  constructor
  · intro hle
    unfold reachFinal
    rw [hxy]
    simp only []
    rw [if_neg (not_lt.mpr hle)]
  · intro hgt m' a' h
    unfold reachFinal at h
    rw [hxy] at h
    simp only [] at h
    rw [if_pos hgt] at h
    split at h
    case h_1 => cases h
    case h_2 a5 hup =>
      rcases update_route_spec _ _ _ hup with ⟨hemp, rfl⟩ | ⟨hne, t, ht, rfl⟩
      · split at h
        · cases h
          exact Or.inl ⟨rfl, rfl⟩
        · simp at *
      · split at h
        case isTrue hs =>
          cases h
          exact Or.inr (by simp)
        case isFalse hs =>
          have he := stepGo_effects _ _ _ _ _ _ _ h
          refine Or.inr (lt_of_lt_of_le ?_ he.2.2.2.2)
          simp

/-- An agent that has just arrived (alone) at target node 1. -/
def arrivedA : EvacuationAgent :=
  { route := [0, 1], route_index := 1, speed := 3, distance_along_edge := 0,
    pos := 1, evacuated := false, stranded := false, reroute_count := 0,
    lat := none, lon := none, highway := none }

/-- Model for the C2 witness: one agent arriving at the non-full target. -/
def evacM : EvacuationModel :=
  { net := pairNet, target_capacity := 1, target_nodes := [1],
    agents := [arrivedA] }

/-- Witness for the C2 amended theorem: the lone arriving agent satisfies
occupancy 1 ≤ capacity 1 and evacuates. -/
theorem C2_capacity_rule_witness :
    reachFinal 5 evacM 0 arrivedA 0 =
      Except.ok (evacM, { arrivedA with
                           lat := some 0, lon := some 1,
                           evacuated := true }) :=
  (C2_capacity_rule 5 evacM 0 arrivedA 0 (1, 0)
      (by with_unfolding_all decide)).1 (by with_unfolding_all decide)

/-- Loop invariant re-established on exit: a successful `stepGo` whose
result is still Active leaves `0 ≤ distance_along_edge <` the length of
the pending edge (the loop only exits when the leftover budget is
strictly below the remaining edge distance). -/
theorem stepGo_dae : ∀ (fuel : Nat) (m : EvacuationModel) (i : Nat)
    (a : EvacuationAgent) (dtt : ℚ) (m' : EvacuationModel)
    (a' : EvacuationAgent),
    stepGo fuel m i a dtt = Except.ok (m', a') →
    0 ≤ dtt → 0 ≤ a.distance_along_edge →
    a'.evacuated = false → a'.stranded = false →
    0 ≤ a'.distance_along_edge ∧
    ∃ u v L, a'.route.get? a'.route_index = some u ∧
      a'.route.get? (a'.route_index + 1) = some v ∧
      edgeLen m'.net u v = some L ∧ a'.distance_along_edge < L
  | 0, m, i, a, dtt, m', a', h => by simp [stepGo] at h
  | fuel + 1, m, i, a, dtt, m', a', h => by
    intro hdtt hdae hev hst
    simp only [stepGo] at h
    split at h
    case h_1 => cases h
    case h_2 d2n a1 hd2n =>
      have ha1 := d2n_spec m.net a d2n a1 hd2n
      split at h
      case isTrue hle =>
        have hdtt' : 0 ≤ dtt - d2n := sub_nonneg.mpr hle
        split at h
        case h_1 => cases h
        case h_2 newPos hnp =>
          split at h
          · split at h
            case h_1 => cases h
            case h_2 xy hxy =>
              split at h
              · split at h
                case h_1 => cases h
                case h_2 a5 hup =>
                  split at h
                  case isTrue hs =>
                    cases h
                    rw [hs] at hst
                    cases hst
                  case isFalse hs =>
                    exact stepGo_dae fuel _ i _ _ _ _ h hdtt' (le_refl 0) hev hst
              · cases h
                rw [show ({ a1 with
                    route_index := a1.route_index + 1, pos := newPos,
                    lat := some xy.2, lon := some xy.1,
                    evacuated := true } : EvacuationAgent).evacuated = true
                  from rfl] at hev
                cases hev
          · exact stepGo_dae fuel m i _ _ m' a' h hdtt' (le_refl 0) hev hst
      case isFalse hle =>
        split at h
        case h_1 => cases h
        case h_2 a2 hupd =>
          cases h
          have h2 := update_location_spec _ _ _ hupd
          obtain ⟨⟨u, v, L, hu, hv, hL, hdval⟩, hroute, hri, hdaeq, -⟩ := ha1
          have hlt : dtt < d2n := lt_of_not_le hle
          constructor
          · rw [h2.2.2.1]
            simp only []
            rw [hdaeq]
            exact add_nonneg hdae hdtt
          · refine ⟨u, v, L, ?_, ?_, hL, ?_⟩
            · rw [h2.1, h2.2.1]
              simp only []
              rw [hroute, hri]
              exact hu
            · rw [h2.1, h2.2.1]
              simp only []
              rw [hroute, hri]
              exact hv
            · rw [h2.2.2.1]
              simp only []
              rw [hdaeq]
              have : dtt < L - a.distance_along_edge := by
                rw [hdval] at hlt; exact hlt
              linarith

/-- C7 amended: whenever a `step()` succeeds and leaves the agent Active,
the movement invariant is (re-)established: `distance_along_edge` is
non-negative and strictly below the length of the edge from the current
route node to the next (the hypotheses only require the previous
`distance_along_edge` to be non-negative and the speed non-negative, as
the constructed agents satisfy). -/
theorem C7_edge_invariant (i : Nat) (m m' : EvacuationModel)
    (a a' : EvacuationAgent)
    (hstep : stepAt i m = Except.ok m')
    (ha : m.agents.get? i = some a)
    (hspeed : 0 ≤ a.speed)
    (hdae : 0 ≤ a.distance_along_edge)
    (ha' : m'.agents.get? i = some a')
    (hev : a'.evacuated = false) (hst : a'.stranded = false) :
    0 ≤ a'.distance_along_edge ∧
    ∃ u v L, a'.route.get? a'.route_index = some u ∧
      a'.route.get? (a'.route_index + 1) = some v ∧
      edgeLen m'.net u v = some L ∧ a'.distance_along_edge < L := by
  unfold stepAt at hstep
  split at hstep
  case h_1 hnone => rw [ha] at hnone; cases hnone
  case h_2 a0 ha0 =>
    rw [ha] at ha0
    have heq : a = a0 := Option.some.inj ha0
    subst heq
    split at hstep
    case isTrue hterm =>
      cases hstep
      rw [ha] at ha'
      cases ha'
      rcases Bool.or_eq_true_iff.mp hterm with hx | hx
      · rw [hx] at hev; cases hev
      · rw [hx] at hst; cases hst
    case isFalse hterm =>
      split at hstep
      case h_1 => cases hstep
      case h_2 m1 a1 hgo =>
        cases hstep
        obtain ⟨hlt, -⟩ := List.get?_eq_some.mp ha
        have hlen : i < m1.agents.length := by
          rw [(stepGo_effects _ _ _ _ _ _ _ hgo).1]; exact hlt
        have hset : (m1.agents.set i a1).get? i = some a1 := by
          rw [List.get?_eq_get (by simpa using hlen)]
          simp [List.get_set_eq]
        rw [show ({ m1 with agents := m1.agents.set i a1 } :
            EvacuationModel).agents = m1.agents.set i a1 from rfl, hset] at ha'
        cases ha'
        have hdtt : 0 ≤ a.speed / 60 / 60 * 10 * 1000 := by
          have h1 : (0 : ℚ) ≤ a.speed / 60 / 60 :=
            div_nonneg (div_nonneg hspeed (by norm_num)) (by norm_num)
          have h2 : (0 : ℚ) ≤ a.speed / 60 / 60 * 10 :=
            mul_nonneg h1 (by norm_num)
          exact mul_nonneg h2 (by norm_num)
        exact stepGo_dae (stepFuel m a) m i a _ m1 a' hgo hdtt hdae hev hst

/-- The agent of the C3/C7 scenario after its concrete step. -/
def wAgent7 : EvacuationAgent :=
  { route := [1, 2], route_index := 0, speed := 3,
    distance_along_edge := 10 / 3, pos := 1, evacuated := false,
    stranded := false, reroute_count := 1, lat := some 0,
    lon := some (7 / 6), highway := none }

/-- Witness for the C7 amended theorem at the concrete `sharedM` step. -/
theorem C7_edge_invariant_witness : 0 ≤ wAgent7.distance_along_edge :=
  (C7_edge_invariant 0 sharedM sharedM' (mkActive 0 [0, 1]) wAgent7
    (by with_unfolding_all rfl) (by rfl) (by decide) (by decide)
    (by with_unfolding_all decide) (by rfl) (by rfl)).1

/-- Characterization of the `run` loop: snapshots extend the accumulator,
at most one snapshot is added per remaining tick, an early stop happens
exactly when the last collected `evacuated` statistic equals the agent
count, and an early-stopped run is unchanged by any larger tick budget
(no grace period of any kind). -/
theorem runAux_spec : ∀ (r : Nat) (orders : Nat → List Nat) (k : Nat)
    (m : EvacuationModel) (snaps : List Nat) (mfin : EvacuationModel)
    (out : List Nat),
    runAux orders k m snaps r = Except.ok (mfin, out) →
    (∃ rest, out = snaps ++ rest) ∧
    snaps.length ≤ out.length ∧ out.length ≤ snaps.length + r ∧
    (out.length < snaps.length + r → collectEvac mfin = mfin.agents.length) ∧
    (∀ extra, out.length < snaps.length + r →
      runAux orders k m snaps (r + extra) = Except.ok (mfin, out))
  | 0, orders, k, m, snaps, mfin, out, h => by
    cases h
    refine ⟨⟨[], by simp⟩, le_refl _, by simp, ?_, ?_⟩
    · intro hlt; omega
    · intro extra hlt; omega
  | r + 1, orders, k, m, snaps, mfin, out, h => by
    rw [show runAux orders k m snaps (r + 1) =
        (match modelStep (orders k) m with
          | Except.error e => Except.error e
          | Except.ok m' =>
            if collectEvac m' = m'.agents.length then
              Except.ok (m', snaps ++ [collectEvac m'])
            else runAux orders (k + 1) m' (snaps ++ [collectEvac m']) r)
      from rfl] at h
    split at h
    case h_1 => cases h
    case h_2 m1 hms =>
      split at h
      case isTrue hc =>
        cases h
        refine ⟨⟨[collectEvac mfin], rfl⟩, by simp, by simp, fun _ => hc, ?_⟩
        intro extra hlt
        rw [show r + 1 + extra = (r + extra) + 1 from by omega]
        simp only [runAux, hms, if_pos hc]
      case isFalse hc =>
        have ih := runAux_spec r orders (k + 1) m1
          (snaps ++ [collectEvac m1]) mfin out h
        obtain ⟨⟨rest, hrest⟩, hle, hub, hstop, hstable⟩ := ih
        refine ⟨⟨collectEvac m1 :: rest, by simpa using hrest⟩, ?_, ?_, ?_, ?_⟩
        · calc snaps.length ≤ (snaps ++ [collectEvac m1]).length := by simp
            _ ≤ out.length := hle
        · have := hub; simp at this ⊢; omega
        · intro hlt
          refine hstop ?_
          simp at hlt ⊢; omega
        · intro extra hlt
          rw [show r + 1 + extra = (r + extra) + 1 from by omega]
          simp only [runAux, hms, if_neg hc]
          refine hstable extra ?_
          simp at hlt ⊢; omega

/-- C4 amended: `run(maxSteps)` collects one snapshot before the loop and
one per executed tick; it executes at most `maxSteps` ticks and stops
EARLY exactly when the tick's collected `evacuated` statistic — the
number of agents located at target nodes — equals the total agent count,
with no grace period: an early-stopped run returns the identical result
under any larger `maxSteps`. -/
theorem C4_run_characterization (orders : Nat → List Nat)
    (m : EvacuationModel) (steps : Nat) (mfin : EvacuationModel)
    (snaps : List Nat)
    (h : runModel orders m steps = Except.ok (mfin, snaps)) :
    snaps.head? = some (collectEvac m) ∧
    1 ≤ snaps.length ∧ snaps.length ≤ steps + 1 ∧
    (snaps.length < steps + 1 → collectEvac mfin = mfin.agents.length) ∧
    (∀ extra, snaps.length < steps + 1 →
      runModel orders m (steps + extra) = Except.ok (mfin, snaps)) := by
  obtain ⟨⟨rest, hrest⟩, hle, hub, hstop, hstable⟩ :=
    runAux_spec steps orders 0 m [collectEvac m] mfin snaps h
  refine ⟨by rw [hrest]; rfl, by simpa using hle, ?_, ?_, ?_⟩
  · simpa [Nat.add_comm] using hub
  · intro hlt; exact hstop (by simpa [Nat.add_comm] using hlt)
  · intro extra hlt
    exact hstable extra (by simpa [Nat.add_comm] using hlt)

/-- The final model of the concrete C5/C4-witness run. -/
def ptFin : EvacuationModel :=
  match runModel (fun _ => [0]) passThroughM 1 with
  | Except.ok r => r.1
  | Except.error _ => passThroughM

/-- The snapshot list of the concrete C5/C4-witness run. -/
def ptSnaps : List Nat :=
  match runModel (fun _ => [0]) passThroughM 1 with
  | Except.ok r => r.2
  | Except.error _ => []

/-- Witness for the C4 amended theorem at a concrete one-tick run. -/
theorem C4_run_characterization_witness :
    ptSnaps.head? = some (collectEvac passThroughM) :=
  (C4_run_characterization (fun _ => [0]) passThroughM 1 ptFin ptSnaps
    (by with_unfolding_all rfl)).1

/-- Partition of an agent list by the two (never simultaneously set)
status flags. -/
theorem count_partition : ∀ (l : List EvacuationAgent),
    (∀ a ∈ l, ¬(a.evacuated = true ∧ a.stranded = true)) →
    (l.filter fun a => a.evacuated).length +
      (l.filter fun a => a.stranded).length +
      (l.filter fun a => !a.evacuated && !a.stranded).length = l.length
  | [], _ => rfl
  | a :: l, h => by
    have ih := count_partition l fun b hb => h b (List.mem_cons_of_mem a hb)
    have ha := h a (List.mem_cons_self a l)
    cases he : a.evacuated
    · cases hs : a.stranded
      · simp only [List.filter_cons, he, hs]
        simp
        omega
      · simp only [List.filter_cons, he, hs]
        simp
        omega
    · have hs : a.stranded = false := by
        cases hq : a.stranded
        · rfl
        · exact absurd ⟨he, hq⟩ ha
      simp only [List.filter_cons, he, hs]
      simp
      omega

/-- Sum of a pointwise sum of two maps. -/
theorem sum_map_add : ∀ (l : List Nat) (f g : Nat → Nat),
    (l.map fun x => f x + g x).sum = (l.map f).sum + (l.map g).sum
  | [], _, _ => rfl
  | x :: l, f, g => by
    simp only [List.map_cons, List.sum_cons, sum_map_add l f g]
    omega

/-- A sum of indicators over a list not containing `x` is zero. -/
theorem sum_indicator_zero : ∀ (ns : List Nat) (x : Nat), x ∉ ns →
    ((ns.map fun t => if x == t then 1 else 0).sum : Nat) = 0
  | [], _, _ => rfl
  | t :: ns, x, hx => by
    have hxt : (x == t) = false := by
      simp only [beq_eq_false_iff_ne]
      intro hh
      exact hx (hh ▸ List.mem_cons_self t ns)
    simp only [List.map_cons, List.sum_cons, hxt, if_false]
    simpa using sum_indicator_zero ns x fun hh => hx (List.mem_cons_of_mem t hh)

/-- Over a duplicate-free list the indicator sum is the membership test. -/
theorem sum_indicator_nodup : ∀ (ns : List Nat) (x : Nat), ns.Nodup →
    ((ns.map fun t => if x == t then 1 else 0).sum : Nat) =
      if x ∈ ns then 1 else 0
  | [], x, _ => by simp
  | t :: ns, x, hnd => by
    rcases List.nodup_cons.mp hnd with ⟨ht, hnd'⟩
    by_cases hx : x = t
    · subst hx
      simp only [List.map_cons, List.sum_cons, beq_self_eq_true, if_true]
      rw [sum_indicator_zero ns x ht]
      simp
    · have hxt : (x == t) = false := beq_eq_false_iff_ne.mpr hx
      simp only [List.map_cons, List.sum_cons, hxt, if_false]
      rw [sum_indicator_nodup ns x hnd']
      simp [List.mem_cons, hx]

/-- The collected `evacuated` statistic equals the number of agents
positioned at some target node (regardless of status). -/
theorem collect_positional : ∀ (l : List EvacuationAgent) (ts : List Nat),
    (ts.dedup.map fun t => cellCount l t).sum =
      (l.filter fun a => ts.contains a.pos).length
  | [], ts => by
    have : ∀ t ∈ ts.dedup, cellCount ([] : List EvacuationAgent) t = 0 :=
      fun t _ => rfl
    simp [cellCount]
  | a :: l, ts => by
    have hcell : ∀ t, cellCount (a :: l) t =
        (if a.pos == t then 1 else 0) + cellCount l t := by
      intro t
      simp only [cellCount, List.filter_cons]
      by_cases hp : (a.pos == t) = true
      · simp [hp]; omega
      · have hp' : (a.pos == t) = false := by simpa using hp
        simp [hp']
    calc (ts.dedup.map fun t => cellCount (a :: l) t).sum
        = (ts.dedup.map fun t =>
            (if a.pos == t then 1 else 0) + cellCount l t).sum := by
          simp only [hcell]
      _ = (ts.dedup.map fun t => if a.pos == t then 1 else 0).sum +
            (ts.dedup.map fun t => cellCount l t).sum :=
          sum_map_add _ _ _
      _ = (if a.pos ∈ ts.dedup then 1 else 0) +
            (l.filter fun b => ts.contains b.pos).length := by
          rw [sum_indicator_nodup _ _ (List.nodup_dedup ts),
            collect_positional l ts]
      _ = ((a :: l).filter fun b => ts.contains b.pos).length := by
          simp only [List.filter_cons, List.mem_dedup]
          by_cases hm : a.pos ∈ ts
          · have : ts.contains a.pos = true := List.elem_eq_true_of_mem hm
            simp [hm, this]
            omega
          · have : ts.contains a.pos = false := by
              simpa using fun hh => hm (by simpa using hh)
            simp [hm, this]

/-- No agent ever carries both status flags. -/
def FlagsOK (m : EvacuationModel) : Prop :=
  ∀ b ∈ m.agents, ¬(b.evacuated = true ∧ b.stranded = true)

/-- The movement loop never produces an agent with both flags set. -/
theorem stepGo_flags : ∀ (fuel : Nat) (m : EvacuationModel) (i : Nat)
    (a : EvacuationAgent) (dtt : ℚ) (m' : EvacuationModel)
    (a' : EvacuationAgent),
    stepGo fuel m i a dtt = Except.ok (m', a') →
    a.evacuated = false → a.stranded = false →
    ¬(a'.evacuated = true ∧ a'.stranded = true)
  | 0, m, i, a, dtt, m', a', h => by simp [stepGo] at h
  | fuel + 1, m, i, a, dtt, m', a', h => by
    intro hev hst
    simp only [stepGo] at h
    split at h
    case h_1 => cases h
    case h_2 d2n a1 hd2n =>
      have ha1 := d2n_spec m.net a d2n a1 hd2n
      have hev1 : a1.evacuated = false := ha1.2.2.2.2.2.1.trans hev
      have hst1 : a1.stranded = false := ha1.2.2.2.2.2.2.1.trans hst
      split at h
      case isTrue hle =>
        split at h
        case h_1 => cases h
        case h_2 newPos hnp =>
          split at h
          · split at h
            case h_1 => cases h
            case h_2 xy hxy =>
              split at h
              · split at h
                case h_1 => cases h
                case h_2 a5 hup =>
                  have hfr := update_route_frame _ _ _ hup
                  have hev5 : a5.evacuated = false := hfr.2.1.trans hev1
                  split at h
                  case isTrue hs =>
                    cases h
                    intro hc
                    rw [hev5] at hc
                    cases hc.1
                  case isFalse hs =>
                    exact stepGo_flags fuel _ i _ _ _ _ h hev5
                      (by simpa using hs)
              · cases h
                intro hc
                rw [show ({ a1 with
                    route_index := a1.route_index + 1, pos := newPos,
                    lat := some xy.2, lon := some xy.1,
                    evacuated := true } : EvacuationAgent).stranded =
                    a1.stranded from rfl, hst1] at hc
                cases hc.2
          · exact stepGo_flags fuel m i _ _ m' a' h hev1 hst1
      case isFalse =>
        split at h
        case h_1 => cases h
        case h_2 a2 hupd =>
          cases h
          have h2 := update_location_spec _ _ _ hupd
          intro hc
          rw [h2.2.2.2.2.1] at hc
          simp only [] at hc
          rw [hev1] at hc
          cases hc.1

/-- One agent step preserves the flag invariant. -/
theorem stepAt_flags (i : Nat) (m m' : EvacuationModel)
    (h : stepAt i m = Except.ok m') (hF : FlagsOK m) : FlagsOK m' := by
  unfold stepAt at h
  split at h
  case h_1 => cases h; exact hF
  case h_2 a ha =>
    split at h
    case isTrue => cases h; exact hF
    case isFalse hterm =>
      split at h
      case h_1 => cases h
      case h_2 m1 a1 hgo =>
        cases h
        intro b hb
        rcases List.mem_or_eq_of_mem_set hb with hb' | rfl
        · exact hF b (by rw [← (stepGo_effects _ _ _ _ _ _ _ hgo).1]; exact hb')
        · have hor : (a.evacuated || a.stranded) = false := by
            simpa using hterm
          rcases Bool.or_eq_false_iff.mp hor with ⟨h1, h2⟩
          exact stepGo_flags _ _ _ _ _ _ _ hgo h1 h2

/-- The flag invariant propagates along any sequence of steps. -/
theorem reachable_flags (m m' : EvacuationModel) (hr : Reachable m m')
    (hF : FlagsOK m) : FlagsOK m' := by
  induction hr with
  | refl => exact hF
  | tail j hr hstep ih => exact stepAt_flags j _ _ hstep ih

/-- Construction produces agents with at most one flag set. -/
theorem createAgents_flags : ∀ (sns : List Nat) (m m' : EvacuationModel),
    createAgents m sns = Except.ok m' → FlagsOK m → FlagsOK m'
  | [], m, m', h, hF => by cases h; exact hF
  | sn :: rest, m, m', h, hF => by
    simp only [createAgents] at h
    split at h
    case h_1 => cases h
    case h_2 a hup =>
      refine createAgents_flags rest _ m' h ?_
      intro b hb
      rcases List.mem_append.mp hb with hb' | hb'
      · exact hF b hb'
      · have hba : b = a := by simpa using hb'
        subst hba
        have hfr := update_route_frame _ _ _ hup
        intro hc
        rw [hfr.2.1] at hc
        cases hc.1

/-- A freshly built model satisfies the flag invariant. -/
theorem buildModel_flags (net0 : Network) (cap : Nat) (inp : BuildInput)
    (m0 : EvacuationModel) (hb : buildModel net0 cap inp = Except.ok m0) :
    FlagsOK m0 := by
  unfold buildModel at hb
  simp only [] at hb
  split at hb
  · cases hb
  · split at hb
    · cases hb
    · split at hb
      case h_1 => cases hb
      case h_2 sns hsns =>
        exact createAgents_flags sns _ m0 hb (fun b hb' => by cases hb')

/-- C5 amended: in every state reachable from a constructed model the
status counts (Evacuated / Stranded / Active by the two flags) partition
the agent population — conservation holds — but the `evacuated` figure
recorded in the per-tick snapshot is the number of agents POSITIONED at a
current target node, whatever their status; no stranded or active count
is recorded at all. -/
theorem C5_conservation (net0 : Network) (cap : Nat) (inp : BuildInput)
    (m0 m : EvacuationModel)
    (hb : buildModel net0 cap inp = Except.ok m0)
    (hr : Reachable m0 m) :
    countEvac m + countStranded m + countActive m = m.agents.length ∧
    collectEvac m =
      (m.agents.filter fun a => m.target_nodes.contains a.pos).length := by
  have hF : FlagsOK m := reachable_flags m0 m hr (buildModel_flags _ _ _ _ hb)
  exact ⟨count_partition m.agents hF, collect_positional m.agents m.target_nodes⟩

/-- The model built from `zeroEdgeInput`, used as a concrete witness. -/
def zeroM : EvacuationModel :=
  match buildModel dotNet 1 zeroEdgeInput with
  | Except.ok m => m
  | Except.error _ =>
    { net := dotNet, target_capacity := 1, target_nodes := [], agents := [] }

/-- Witness for the C5 amended theorem at the freshly built `zeroM`. -/
theorem C5_conservation_witness :
    countEvac zeroM + countStranded zeroM + countActive zeroM =
      zeroM.agents.length ∧
    collectEvac zeroM =
      (zeroM.agents.filter fun a => zeroM.target_nodes.contains a.pos).length :=
  C5_conservation dotNet 1 zeroEdgeInput zeroM zeroM
    (by with_unfolding_all rfl) (Reachable.refl zeroM)

/-- `oLe` is reflexive. -/
theorem oLe_refl : ∀ d : Option ℚ, oLe d d = true
  | some q => by simp [oLe]
  | none => by simp [oLe]

/-- Weakening of the strict order. -/
theorem oLe_of_oLt : ∀ {x y : Option ℚ}, oLt x y = true → oLe x y = true
  | some p, some q, h => by
    simp [oLt] at h; simp [oLe]; exact le_of_lt h
  | some _, none, _ => by simp [oLe]
  | none, _, h => by simp [oLt] at h

/-- Totality: if `y` is not strictly below `x` then `x ≤ y`. -/
theorem oLe_of_not_oLt : ∀ {x y : Option ℚ}, oLt y x = false → oLe x y = true
  | _, none, _ => by simp [oLe]
  | none, some q, h => by simp [oLt] at h
  | some p, some q, h => by
    simp [oLt] at h; simp [oLe]; exact h

/-- Transitivity mixing strict and non-strict comparisons. -/
theorem oLt_oLe_trans : ∀ {x y z : Option ℚ},
    oLt x y = true → oLe y z = true → oLt x z = true
  | some p, some q, some r, h1, h2 => by
    simp [oLt] at h1 ⊢; simp [oLe] at h2; exact lt_of_lt_of_le h1 h2
  | some p, some q, none, h1, _ => by simp [oLt]
  | some p, none, some r, _, h2 => by simp [oLe] at h2
  | some p, none, none, _, _ => by simp [oLt]
  | none, _, _, h1, _ => by simp [oLt] at h1

/-- Invariant of the `np.argmin` accumulator loop: the running best index
points at the first minimum of the processed prefix, and the final result
is the first index of a global minimum. -/
theorem argminAux_invariant : ∀ (ds full : List (Option ℚ)) (i best : Nat)
    (cur : Option ℚ),
    (∀ k, full.get? (i + k) = ds.get? k) →
    full.length = i + ds.length →
    full.get? best = some cur →
    best < i →
    (∀ k dk, k < i → full.get? k = some dk → oLe cur dk = true) →
    (∀ k dk, k < best → full.get? k = some dk → oLt cur dk = true) →
    ∃ curj, full.get? (argminAux ds i cur best) = some curj ∧
      argminAux ds i cur best < full.length ∧
      (∀ k dk, full.get? k = some dk → oLe curj dk = true) ∧
      (∀ k dk, k < argminAux ds i cur best → full.get? k = some dk →
        oLt curj dk = true)
  | [], full, i, best, cur, hsuf, hlen, hbest, hbi, hmin, hfirst => by
    refine ⟨cur, hbest, ?_, ?_, hfirst⟩
    · simp [argminAux, hlen]; omega
    · intro k dk hk
      have hklt : k < full.length := (List.get?_eq_some.mp hk).1
      exact hmin k dk (by simp at hlen; omega) hk
  | d :: ds, full, i, best, cur, hsuf, hlen, hbest, hbi, hmin, hfirst => by
    have hfi : full.get? i = some d := by
      have := hsuf 0
      simpa using this
    simp only [argminAux]
    by_cases hlt : oLt d cur = true
    · rw [if_pos hlt]
      refine argminAux_invariant ds full (i + 1) i d ?_ ?_ hfi (by omega) ?_ ?_
      · intro k
        have := hsuf (k + 1)
        rw [show i + (k + 1) = i + 1 + k from by omega] at this
        simpa using this
      · simp at hlen ⊢; omega
      · intro k dk hk hget
        by_cases hki : k < i
        · exact oLe_of_oLt (oLt_oLe_trans hlt (hmin k dk hki hget))
        · have : k = i := by omega
          subst this
          rw [hfi] at hget
          cases hget
          exact oLe_refl d
      · intro k dk hk hget
        exact oLt_oLe_trans hlt (hmin k dk hk hget)
    · rw [if_neg hlt]
      refine argminAux_invariant ds full (i + 1) best cur ?_ ?_ hbest
        (by omega) ?_ hfirst
      · intro k
        have := hsuf (k + 1)
        rw [show i + (k + 1) = i + 1 + k from by omega] at this
        simpa using this
      · simp at hlen ⊢; omega
      · intro k dk hk hget
        by_cases hki : k < i
        · exact hmin k dk hki hget
        · have : k = i := by omega
          subst this
          rw [hfi] at hget
          cases hget
          exact oLe_of_not_oLt (by simpa using hlt)

/-- `argminIdx` returns the index of the first minimum of a nonempty
list. -/
theorem argminIdx_spec (d : Option ℚ) (ds : List (Option ℚ)) :
    ∃ dj, (d :: ds).get? (argminIdx (d :: ds)) = some dj ∧
      argminIdx (d :: ds) < (d :: ds).length ∧
      (∀ k dk, (d :: ds).get? k = some dk → oLe dj dk = true) ∧
      (∀ k dk, k < argminIdx (d :: ds) → (d :: ds).get? k = some dk →
        oLt dj dk = true) := by
  have := argminAux_invariant ds (d :: ds) 1 0 d
    (fun k => by simp [Nat.add_comm 1 k]) (by simp [Nat.add_comm])
    (by simp) (by omega)
    (fun k dk hk hget => by
      have : k = 0 := by omega
      subst this
      simp at hget
      subst hget
      exact oLe_refl d)
    (fun k dk hk hget => by omega)
  simpa [argminIdx] using this

/-- C9: with a nonempty candidate list (and all node ids present in the
node index, as construction guarantees), `update_route` adopts the
shortest path to the selected target `t`, and `t` is the nearest
candidate by shortest-path distance: no candidate is strictly closer,
every candidate listed before the selected index is strictly farther
(ties therefore resolve to the earliest listed candidate, as `np.argmin`
returns the first minimum), and if any candidate is reachable the
selected one is. -/
theorem C9_nearest_earliest_selection (m : EvacuationModel)
    (a : EvacuationAgent) (t : Nat)
    (hne : m.target_nodes ≠ [])
    (hkeys : (m.target_nodes.all fun u => m.net.nodes.contains u) = true)
    (hsrc : m.net.nodes.contains a.pos = true)
    (hsel : selectTarget m.net a.pos m.target_nodes = some t) :
    update_route m a = Except.ok { a with
        route := getShortestPath m.net a.pos t,
        route_index := 0,
        reroute_count := a.reroute_count + 1 } ∧
    (∀ k tk, m.target_nodes.get? k = some tk →
      oLe (spDist m.net a.pos t) (spDist m.net a.pos tk) = true) ∧
    (∀ k tk,
      k < argminIdx (m.target_nodes.map fun u => spDist m.net a.pos u) →
      m.target_nodes.get? k = some tk →
      oLt (spDist m.net a.pos t) (spDist m.net a.pos tk) = true) ∧
    ((∃ k tk q, m.target_nodes.get? k = some tk ∧
        spDist m.net a.pos tk = some q) →
      spDist m.net a.pos t ≠ none) := by
  have hlen0 : ¬(m.target_nodes.length = 0) := by
    intro hh; exact hne (List.length_eq_zero.mp hh)
  have hfirst : update_route m a = Except.ok { a with
      route := getShortestPath m.net a.pos t,
      route_index := 0,
      reroute_count := a.reroute_count + 1 } := by
    unfold update_route
    rw [if_neg hlen0, hkeys, hsrc]
    simp [hsel]
  obtain ⟨t0, ts, hts⟩ : ∃ t0 ts, m.target_nodes = t0 :: ts := by
    cases hcase : m.target_nodes with
    | nil => exact absurd hcase hne
    | cons x xs => exact ⟨x, xs, rfl⟩
  have hmap : (m.target_nodes.map fun u => spDist m.net a.pos u) =
      spDist m.net a.pos t0 :: (ts.map fun u => spDist m.net a.pos u) := by
    rw [hts]; rfl
  obtain ⟨dj, hdj, hjlt, hmin, hstrict⟩ :=
    argminIdx_spec (spDist m.net a.pos t0) (ts.map fun u => spDist m.net a.pos u)
  rw [← hmap] at hdj hjlt hmin hstrict
  have hget : m.target_nodes.get?
      (argminIdx (m.target_nodes.map fun u => spDist m.net a.pos u)) = some t :=
    hsel
  have hdjt : dj = spDist m.net a.pos t := by
    have : (m.target_nodes.map fun u => spDist m.net a.pos u).get?
        (argminIdx (m.target_nodes.map fun u => spDist m.net a.pos u)) =
        some (spDist m.net a.pos t) := by
      rw [List.get?_map, hget]; rfl
    rw [this] at hdj
    exact (Option.some.inj hdj).symm
  subst hdjt
  refine ⟨hfirst, ?_, ?_, ?_⟩
  · intro k tk hk
    refine hmin k (spDist m.net a.pos tk) ?_
    rw [List.get?_map, hk]; rfl
  · intro k tk hklt hk
    refine hstrict k (spDist m.net a.pos tk) hklt ?_
    rw [List.get?_map, hk]; rfl
  · rintro ⟨k, tk, q, hk, hq⟩ hnone
    have := hmin k (spDist m.net a.pos tk) (by rw [List.get?_map, hk]; rfl)
    rw [hnone, hq] at this
    simp [oLe] at this

/-- Witness for C9 at the fork network, where targets 1 and 2 are
equidistant from node 0 and the earlier candidate 1 is selected. -/
theorem C9_nearest_earliest_selection_witness :
    update_route forkM (mkActive 0 []) = Except.ok { mkActive 0 [] with
        route := getShortestPath forkNet 0 1,
        route_index := 0,
        reroute_count := (mkActive 0 []).reroute_count + 1 } :=
  (C9_nearest_earliest_selection forkM (mkActive 0 []) 1
    (by decide) (by with_unfolding_all decide) (by decide)
    (by with_unfolding_all decide)).1

/-- A successful snap produces one node per start location. -/
theorem snapAll_length : ∀ (net0 : Network) (l : List (ℚ × ℚ))
    (out : List Nat), snapAll net0 l = some out → out.length = l.length
  | _, [], out, h => by cases h; rfl
  | net0, p :: ps, out, h => by
    simp only [snapAll] at h
    split at h
    case h_1 n ns hn hns =>
      cases h
      simp [snapAll_length net0 ps ns hns]
    case h_2 => cases h

/-- Shape of the agent list produced by the construction loop: one agent
per start node, in order, each standing at its start node. -/
theorem createAgents_shape : ∀ (sns : List Nat) (m m' : EvacuationModel),
    createAgents m sns = Except.ok m' →
    m'.agents.length = m.agents.length + sns.length ∧
    m'.agents.map (fun a => a.pos) = m.agents.map (fun a => a.pos) ++ sns
  | [], m, m', h => by cases h; simp
  | sn :: rest, m, m', h => by
    simp only [createAgents] at h
    split at h
    case h_1 => cases h
    case h_2 a hup =>
      have ih := createAgents_shape rest _ m' h
      have hpos : a.pos = sn := (update_route_frame _ _ _ hup).1
      constructor
      · rw [ih.1]; simp; omega
      · rw [ih.2]; simp [hpos]

/-- C10: construction creates simulation agents exactly for the start
locations that lie inside the hazard zone — snapped in order to their
nearest nodes — and aborts with an assertion error, before any agent is
created, when no start location intersects the hazard zone, and likewise
when no target lies outside it (model.py lines 100 and 107). -/
theorem C10_construction_assertions (net0 : Network) (cap : Nat)
    (inp : BuildInput) :
    ((inp.starts.filter inp.inHazard).length = 0 →
      buildModel net0 cap inp = Except.error Err.assertionErr) ∧
    (¬(inp.starts.filter inp.inHazard).length = 0 →
      (targetsOutside inp).length = 0 →
      buildModel net0 cap inp = Except.error Err.assertionErr) ∧
    (∀ m, buildModel net0 cap inp = Except.ok m →
      m.agents.length = (inp.starts.filter inp.inHazard).length ∧
      ∃ sns, snapAll net0 (inp.starts.filter inp.inHazard) = some sns ∧
        m.agents.map (fun a => a.pos) = sns) := by
  refine ⟨?_, ?_, ?_⟩
  · intro h0
    unfold buildModel
    simp only []
    rw [if_pos h0]
  · intro h0 ht
    unfold buildModel
    simp only []
    rw [if_neg h0, if_pos ht]
  · intro m hb
    unfold buildModel at hb
    simp only [] at hb
    split at hb
    · cases hb
    · split at hb
      · cases hb
      · split at hb
        case h_1 => cases hb
        case h_2 sns hsns =>
          have hsh := createAgents_shape sns _ m hb
          refine ⟨?_, sns, hsns, by simpa using hsh.2⟩
          rw [hsh.1]
          simp [snapAll_length net0 _ sns hsns]

/-- Witness for C10: the assertion fires on an input whose only start
location lies outside the hazard zone. -/
theorem C10_construction_assertions_witness :
    buildModel dotNet 1 noHazardInput = Except.error Err.assertionErr :=
  (C10_construction_assertions dotNet 1 noHazardInput).1
    (by with_unfolding_all decide)

/-- Number of distinct targets in a list. -/
def distinctTargets (cur : List Nat) : Nat := cur.dedup.length

/-- A subset of targets has at most as many distinct values. -/
theorem subset_dedup_le (cur cur' : List Nat)
    (h : ∀ u ∈ cur', u ∈ cur) :
    distinctTargets cur' ≤ distinctTargets cur := by
  unfold distinctTargets
  rw [← List.card_toFinset, ← List.card_toFinset]
  refine Finset.card_le_card ?_
  intro x hx
  rw [List.mem_toFinset] at hx ⊢
  exact h x hx

/-- A subset missing a present value has strictly fewer distinct values. -/
theorem subset_dedup_lt (cur cur' : List Nat) (p : Nat)
    (h : ∀ u ∈ cur', u ∈ cur) (hp : p ∈ cur) (hp' : p ∉ cur') :
    distinctTargets cur' + 1 ≤ distinctTargets cur := by
  unfold distinctTargets
  rw [← List.card_toFinset, ← List.card_toFinset]
  have hsub : cur'.toFinset ⊆ cur.toFinset.erase p := by
    intro x hx
    rw [List.mem_toFinset] at hx
    refine Finset.mem_erase.mpr ⟨?_, List.mem_toFinset.mpr (h x hx)⟩
    intro hxp
    exact hp' (hxp ▸ hx)
  have h1 := Finset.card_le_card hsub
  have h2 : (cur.toFinset.erase p).card = cur.toFinset.card - 1 :=
    Finset.card_erase_of_mem (List.mem_toFinset.mpr hp)
  have h3 : 1 ≤ cur.toFinset.card :=
    Finset.card_pos.mpr ⟨p, List.mem_toFinset.mpr hp⟩
  omega

/-- The selected target is one of the candidates. -/
theorem selectTarget_mem (net : Network) (src : Nat) (ts : List Nat) (t : Nat)
    (h : selectTarget net src ts = some t) : t ∈ ts :=
  List.get?_mem h

/-- A nonempty extracted path ends at its destination. -/
theorem buildPath_last (net : Network) (src : Nat) : ∀ (fuel v : Nat),
    buildPath net src fuel v = [] ∨
      (buildPath net src fuel v).getLast? = some v
  | 0, _ => Or.inl rfl
  | fuel + 1, v => by
    simp only [buildPath]
    by_cases hv : v = src
    · subst hv
      rw [if_pos rfl]
      exact Or.inr rfl
    · rw [if_neg hv]
      cases hfind : net.nodes.find? fun u => isPred net src v u with
      | none => exact Or.inl rfl
      | some u => exact Or.inr (by simp)

/-- A nonempty shortest-path route ends at the requested target. -/
theorem getShortestPath_last (net : Network) (src target : Nat) :
    getShortestPath net src target = [] ∨
      (getShortestPath net src target).getLast? = some target := by
  unfold getShortestPath
  cases spDist net src target with
  | none => exact Or.inl rfl
  | some q => exact buildPath_last net src net.nodes.length target

/-- The per-agent reroute-count invariant, relative to the number `N` of
distinct targets configured at construction and the current shared target
list `cur`.  A terminal agent just respects the bound.  An Active agent
carries (existentially) the set of distinct targets it has already tried
and removed from consideration: the set's size equals `reroute_count`,
its members are no longer in `cur`, and — together with the current route
target's membership defect — it complements the remaining distinct
targets within `N`. -/
def AgentInv (N : Nat) (cur : List Nat) (a : EvacuationAgent) : Prop :=
  if a.evacuated = true ∨ a.stranded = true then a.reroute_count ≤ (N : Int)
  else ∃ past : Finset Nat,
    a.reroute_count = (past.card : Int) ∧
    (∀ u ∈ past, u ∉ cur) ∧
    (match a.route.getLast? with
     | some ct => ct ∉ past ∧
         past.card + (if ct ∈ cur then 0 else 1) + distinctTargets cur ≤ N
     | none => past.card + distinctTargets cur ≤ N)

/-- `AgentInv` only depends on the flags, the count and the route. -/
theorem AgentInv_congr (N : Nat) (cur : List Nat) {a b : EvacuationAgent}
    (hev : b.evacuated = a.evacuated) (hst : b.stranded = a.stranded)
    (hc : b.reroute_count = a.reroute_count) (hr : b.route = a.route)
    (h : AgentInv N cur a) : AgentInv N cur b := by
  unfold AgentInv at h ⊢
  rw [hev, hst, hc, hr]
  exact h

/-- The invariant bounds the reroute count. -/
theorem AgentInv_le (N : Nat) (cur : List Nat) (a : EvacuationAgent)
    (h : AgentInv N cur a) : a.reroute_count ≤ (N : Int) := by
  unfold AgentInv at h
  split at h
  · exact h
  · obtain ⟨past, hcard, hdisj, hbound⟩ := h
    rw [hcard]
    split at hbound
    · have := hbound.2; exact_mod_cast by omega
    · exact_mod_cast by omega

/-- The invariant survives any shrinking of the shared target list (the
only change another agent's step can inflict on it). -/
theorem AgentInv_shrink (N : Nat) (cur cur' : List Nat)
    (a : EvacuationAgent) (hsub : ∀ u ∈ cur', u ∈ cur)
    (h : AgentInv N cur a) : AgentInv N cur' a := by
  unfold AgentInv at h ⊢
  split at h
  · simpa [*] using h
  · next hterm =>
    rw [if_neg hterm]
    obtain ⟨past, hcard, hdisj, hbound⟩ := h
    refine ⟨past, hcard, fun u hu hc => hdisj u hu (hsub u hc), ?_⟩
    split at hbound
    case h_1 ct hct =>
      refine ⟨hbound.1, ?_⟩
      by_cases hmem : ct ∈ cur'
      · have hmem' : ct ∈ cur := hsub ct hmem
        have := subset_dedup_le cur cur' hsub
        simp only [hmem, hmem'] at hbound ⊢
        simp at hbound ⊢
        omega
      · by_cases hmem' : ct ∈ cur
        · have := subset_dedup_lt cur cur' ct hsub hmem' hmem
          simp only [hmem, hmem'] at hbound ⊢
          simp at hbound ⊢
          omega
        · have := subset_dedup_le cur cur' hsub
          simp only [hmem, hmem'] at hbound ⊢
          simp at hbound ⊢
          omega
    case h_2 hct =>
      have := subset_dedup_le cur cur' hsub
      omega

/-- Core step of the reroute bound: the agent arrives at the final route
node (`a.pos`), that node is filtered out of the shared list, and the
route is recomputed.  Adding the node to the ghost `past` set keeps its
size equal to the incremented `reroute_count` and re-establishes the
invariant against the reduced target list. -/
theorem update_route_arrival_inv (N : Nat) (m2 : EvacuationModel)
    (cur : List Nat) (a a5 : EvacuationAgent)
    (hcur : m2.target_nodes = cur.filter fun t => t ≠ a.pos)
    (hup : update_route m2 a = Except.ok a5)
    (hev : a.evacuated = false) (hst : a.stranded = false)
    (hlast : a.route.getLast? = some a.pos)
    (hinv : AgentInv N cur a) :
    AgentInv N m2.target_nodes a5 := by
  have hact : ¬(a.evacuated = true ∨ a.stranded = true) := by
    rw [hev, hst]; simp
  unfold AgentInv at hinv
  rw [if_neg hact] at hinv
  obtain ⟨past, hcard, hdisj, hbound⟩ := hinv
  rw [hlast] at hbound
  obtain ⟨hnp, hbound⟩ := hbound
  have hmemfilter : ∀ u, u ∈ m2.target_nodes → u ∈ cur ∧ u ≠ a.pos := by
    intro u hu
    rw [hcur] at hu
    simpa using hu
  have harith : past.card + 1 + distinctTargets m2.target_nodes ≤ N := by
    by_cases hpc : a.pos ∈ cur
    · have hlt := subset_dedup_lt cur m2.target_nodes a.pos
        (fun u hu => (hmemfilter u hu).1) hpc
        (fun hc => (hmemfilter _ hc).2 rfl)
      simp only [hpc, if_true] at hbound
      omega
    · have hle := subset_dedup_le cur m2.target_nodes
        (fun u hu => (hmemfilter u hu).1)
      simp only [hpc, if_false] at hbound
      omega
  rcases update_route_spec _ _ _ hup with ⟨hemp, rfl⟩ | ⟨hne, t, ht, rfl⟩
  · unfold AgentInv
    rw [if_pos (by simp)]
    show a.reroute_count ≤ (N : Int)
    rw [hcard]
    exact_mod_cast by omega
  · unfold AgentInv
    rw [if_neg (by rw [hev, hst]; simp)]
    refine ⟨insert a.pos past, ?_, ?_, ?_⟩
    · show a.reroute_count + 1 = ((insert a.pos past).card : Int)
      rw [Finset.card_insert_of_not_mem hnp, hcard]
      push_cast
      ring
    · intro u hu hc
      rcases Finset.mem_insert.mp hu with heq | hu'
      · exact (hmemfilter u hc).2 heq
      · exact hdisj u hu' (hmemfilter u hc).1
    · show (match (getShortestPath m2.net a.pos t).getLast? with
        | some ct => ct ∉ insert a.pos past ∧
            (insert a.pos past).card +
              (if ct ∈ m2.target_nodes then 0 else 1) +
              distinctTargets m2.target_nodes ≤ N
        | none => (insert a.pos past).card +
            distinctTargets m2.target_nodes ≤ N)
      have hcardins := Finset.card_insert_of_not_mem hnp
      rcases getShortestPath_last m2.net a.pos t with hpath | hpath
      · rw [hpath, List.getLast?_nil]
        show (insert a.pos past).card + distinctTargets m2.target_nodes ≤ N
        rw [hcardins]
        omega
      · rw [hpath]
        have htmem : t ∈ m2.target_nodes := selectTarget_mem _ _ _ _ ht
        show t ∉ insert a.pos past ∧
          (insert a.pos past).card + (if t ∈ m2.target_nodes then 0 else 1) +
            distinctTargets m2.target_nodes ≤ N
        refine ⟨?_, ?_⟩
        · intro hc
          rcases Finset.mem_insert.mp hc with heq | hc'
          · exact (hmemfilter t htmem).2 heq
          · exact hdisj t hc' (hmemfilter t htmem).1
        · rw [hcardins]
          simp only [htmem, if_true]
          omega

/-- The movement loop preserves the reroute-count invariant of the acting
agent (relative to the loop's own shrinking of the shared list). -/
theorem stepGo_inv : ∀ (fuel : Nat) (m : EvacuationModel) (i : Nat)
    (a : EvacuationAgent) (dtt : ℚ) (m' : EvacuationModel)
    (a' : EvacuationAgent) (N : Nat),
    stepGo fuel m i a dtt = Except.ok (m', a') →
    a.evacuated = false → a.stranded = false →
    AgentInv N m.target_nodes a →
    AgentInv N m'.target_nodes a'
  | 0, m, i, a, dtt, m', a', N, h => by simp [stepGo] at h
  | fuel + 1, m, i, a, dtt, m', a', N, h => by
    intro hev hst hinv
    simp only [stepGo] at h
    split at h
    case h_1 => cases h
    case h_2 d2n a1 hd2n =>
      have ha1 := d2n_spec m.net a d2n a1 hd2n
      have hev1 : a1.evacuated = false := ha1.2.2.2.2.2.1.trans hev
      have hst1 : a1.stranded = false := ha1.2.2.2.2.2.2.1.trans hst
      split at h
      case isTrue hle =>
        split at h
        case h_1 => cases h
        case h_2 newPos hnp =>
          split at h
          case isTrue hfin =>
            split at h
            case h_1 => cases h
            case h_2 xy hxy =>
              set a4 : EvacuationAgent :=
                { a1 with
                    route_index := a1.route_index + 1,
                    pos := newPos,
                    lat := some xy.2,
                    lon := some xy.1 } with ha4
              have hinv4 : AgentInv N m.target_nodes a4 :=
                AgentInv_congr N m.target_nodes
                  (by rw [ha4]; exact ha1.2.2.2.2.2.1)
                  (by rw [ha4]; exact ha1.2.2.2.2.2.2.1)
                  (by rw [ha4]; exact ha1.2.2.2.2.2.2.2.1)
                  (by rw [ha4]; exact ha1.2.1) hinv
              have hlast4 : a4.route.getLast? = some a4.pos := by
                have : a4.route.get? (a4.route.length - 1) = some a4.pos := by
                  show a1.route.get? (a1.route.length - 1) = some newPos
                  have hlen : a1.route_index + 1 = a1.route.length - 1 := hfin
                  rw [← hlen]
                  exact hnp
                rw [List.getLast?_eq_get?]
                exact this
              split at h
              case isTrue hcap =>
                split at h
                case h_1 => cases h
                case h_2 a5 hup =>
                  have hinv5 := update_route_arrival_inv N
                    { m with target_nodes :=
                        m.target_nodes.filter fun t => t ≠ a4.pos }
                    m.target_nodes a4 a5 rfl hup
                    (ha1.2.2.2.2.2.1.trans hev)
                    (ha1.2.2.2.2.2.2.1.trans hst) hlast4 hinv4
                  have hfr := update_route_frame _ _ _ hup
                  split at h
                  case isTrue hs =>
                    cases h
                    exact hinv5
                  case isFalse hs =>
                    refine stepGo_inv fuel _ i _ _ m' a' N h
                      (hfr.2.1.trans (ha1.2.2.2.2.2.1.trans hev))
                      (by simpa using hs) ?_
                    exact AgentInv_congr _ _ rfl rfl rfl rfl hinv5
              case isFalse hcap =>
                cases h
                unfold AgentInv
                rw [if_pos (by simp)]
                show a4.reroute_count ≤ (N : Int)
                exact AgentInv_le N m.target_nodes a4 hinv4
          case isFalse hfin =>
            refine stepGo_inv fuel m i _ _ m' a' N h
              (ha1.2.2.2.2.2.1.trans hev) (ha1.2.2.2.2.2.2.1.trans hst) ?_
            exact AgentInv_congr N m.target_nodes
              ha1.2.2.2.2.2.1 ha1.2.2.2.2.2.2.1 ha1.2.2.2.2.2.2.2.1
              ha1.2.1 hinv
      case isFalse =>
        split at h
        case h_1 => cases h
        case h_2 a2 hupd =>
          cases h
          have h2 := update_location_spec _ _ _ hupd
          exact AgentInv_congr N m.target_nodes
            (h2.2.2.2.2.1.trans ha1.2.2.2.2.2.1)
            (h2.2.2.2.2.2.1.trans ha1.2.2.2.2.2.2.1)
            (h2.2.2.2.2.2.2.1.trans ha1.2.2.2.2.2.2.2.1)
            (h2.1.trans ha1.2.1) hinv

/-- Every scheduled agent satisfies the reroute-count invariant. -/
def ModelInv (N : Nat) (m : EvacuationModel) : Prop :=
  ∀ b ∈ m.agents, AgentInv N m.target_nodes b

/-- One agent step preserves the model-wide invariant. -/
theorem stepAt_inv (i : Nat) (m m' : EvacuationModel) (N : Nat)
    (h : stepAt i m = Except.ok m') (hI : ModelInv N m) : ModelInv N m' := by
  unfold stepAt at h
  split at h
  case h_1 => cases h; exact hI
  case h_2 a ha =>
    split at h
    case isTrue => cases h; exact hI
    case isFalse hterm =>
      split at h
      case h_1 => cases h
      case h_2 m1 a1 hgo =>
        cases h
        have he := stepGo_effects _ _ _ _ _ _ _ hgo
        intro b hb
        rcases List.mem_or_eq_of_mem_set hb with hb' | rfl
        · refine AgentInv_shrink N m.target_nodes m1.target_nodes b
            (fun u hu => List.Sublist.subset he.2.2.2.1 hu) ?_
          exact hI b (by rw [← he.1]; exact hb')
        · have hor : (a.evacuated || a.stranded) = false := by
            simpa using hterm
          rcases Bool.or_eq_false_iff.mp hor with ⟨h1, h2⟩
          exact stepGo_inv (stepFuel m a) m i a _ m1 b N hgo h1 h2
            (hI a (List.get?_mem ha))

/-- The invariant propagates along any sequence of steps. -/
theorem reachable_inv (m m' : EvacuationModel) (N : Nat)
    (hr : Reachable m m') (hI : ModelInv N m) : ModelInv N m' := by
  induction hr with
  | refl => exact hI
  | tail j hr hstep ih => exact stepAt_inv j _ _ N hstep ih

/-- The construction loop does not touch the target list or the graph. -/
theorem createAgents_model : ∀ (sns : List Nat) (m m' : EvacuationModel),
    createAgents m sns = Except.ok m' →
    m'.target_nodes = m.target_nodes ∧ m'.net = m.net ∧
    m'.target_capacity = m.target_capacity
  | [], m, m', h => by cases h; exact ⟨rfl, rfl, rfl⟩
  | sn :: rest, m, m', h => by
    simp only [createAgents] at h
    split at h
    case h_1 => cases h
    case h_2 a hup =>
      exact createAgents_model rest { m with agents := m.agents ++ [a] } m' h

/-- A freshly routed agent satisfies the invariant with the empty ghost
set. -/
theorem update_route_fresh_inv (m : EvacuationModel) (sn : Nat)
    (a : EvacuationAgent)
    (h : update_route m (newAgent sn) = Except.ok a) :
    AgentInv (distinctTargets m.target_nodes) m.target_nodes a := by
  rcases update_route_spec _ _ _ h with ⟨hemp, rfl⟩ | ⟨hne, t, ht, rfl⟩
  · unfold AgentInv
    rw [if_pos (by simp [newAgent])]
    show (-1 : Int) ≤ (distinctTargets m.target_nodes : Int)
    have : (0 : Int) ≤ (distinctTargets m.target_nodes : Int) := by positivity
    omega
  · unfold AgentInv
    rw [if_neg (by simp [newAgent])]
    refine ⟨∅, by simp [newAgent], by simp, ?_⟩
    show (match (getShortestPath m.net (newAgent sn).pos t).getLast? with
      | some ct => ct ∉ (∅ : Finset Nat) ∧
          (∅ : Finset Nat).card + (if ct ∈ m.target_nodes then 0 else 1) +
            distinctTargets m.target_nodes ≤ distinctTargets m.target_nodes
      | none => (∅ : Finset Nat).card + distinctTargets m.target_nodes ≤
          distinctTargets m.target_nodes)
    rcases getShortestPath_last m.net (newAgent sn).pos t with hpath | hpath
    · rw [hpath, List.getLast?_nil]
      simp
    · rw [hpath]
      have htmem : t ∈ m.target_nodes := selectTarget_mem _ _ _ _ ht
      refine ⟨by simp, ?_⟩
      simp [htmem]

/-- The construction loop establishes the model-wide invariant. -/
theorem createAgents_inv : ∀ (sns : List Nat) (m m' : EvacuationModel),
    createAgents m sns = Except.ok m' →
    ModelInv (distinctTargets m.target_nodes) m →
    ModelInv (distinctTargets m.target_nodes) m'
  | [], m, m', h, hI => by cases h; exact hI
  | sn :: rest, m, m', h, hI => by
    simp only [createAgents] at h
    split at h
    case h_1 => cases h
    case h_2 a hup =>
      have := createAgents_inv rest { m with agents := m.agents ++ [a] } m' h
      refine this ?_
      intro b hb
      rcases List.mem_append.mp hb with hb' | hb'
      · exact hI b hb'
      · have hba : b = a := by simpa using hb'
        subst hba
        exact update_route_fresh_inv m sn b hup

/-- A freshly built model satisfies the invariant relative to its own
distinct-target count. -/
theorem buildModel_inv (net0 : Network) (cap : Nat) (inp : BuildInput)
    (m0 : EvacuationModel) (hb : buildModel net0 cap inp = Except.ok m0) :
    ModelInv (distinctTargets m0.target_nodes) m0 := by
  unfold buildModel at hb
  simp only [] at hb
  split at hb
  · cases hb
  · split at hb
    · cases hb
    · split at hb
      case h_1 => cases hb
      case h_2 sns hsns =>
        have hm := createAgents_model sns _ m0 hb
        rw [hm.1]
        exact createAgents_inv sns _ m0 hb (fun b hb' => by cases hb')

/-- Every constructed agent has `reroute_count = 0`: construction runs
`update_route` once on a fresh agent (count -1) against the nonempty
target list checked by the assertion. -/
theorem createAgents_counts : ∀ (sns : List Nat) (m m' : EvacuationModel),
    createAgents m sns = Except.ok m' →
    m.target_nodes ≠ [] →
    (∀ b ∈ m.agents, b.reroute_count = 0) →
    ∀ b ∈ m'.agents, b.reroute_count = 0
  | [], m, m', h, hne, h0 => by cases h; exact h0
  | sn :: rest, m, m', h, hne, h0 => by
    simp only [createAgents] at h
    split at h
    case h_1 => cases h
    case h_2 a hup =>
      refine createAgents_counts rest _ m' h hne ?_
      intro b hb
      rcases List.mem_append.mp hb with hb' | hb'
      · exact h0 b hb'
      · have hba : b = a := by simpa using hb'
        subst hba
        rcases update_route_spec _ _ _ hup with ⟨hemp, rfl⟩ | ⟨_, t, ht, rfl⟩
        · exact absurd hemp hne
        · simp [newAgent]

/-- All agents of a freshly built model have `reroute_count = 0`. -/
theorem buildModel_counts (net0 : Network) (cap : Nat) (inp : BuildInput)
    (m0 : EvacuationModel) (hb : buildModel net0 cap inp = Except.ok m0) :
    ∀ b ∈ m0.agents, b.reroute_count = 0 := by
  unfold buildModel at hb
  simp only [] at hb
  split at hb
  · cases hb
  · next hts =>
    split at hb
    · cases hb
    · next htne =>
      split at hb
      case h_1 => cases hb
      case h_2 sns hsns =>
        refine createAgents_counts sns _ m0 hb ?_ (fun b hb' => by cases hb')
        intro hh
        apply htne
        have := congrArg List.length hh
        simpa using this

/-- Steps never change the number of scheduled agents. -/
theorem reachable_length (m m' : EvacuationModel) (hr : Reachable m m') :
    m'.agents.length = m.agents.length := by
  induction hr with
  | refl => rfl
  | tail j hr hstep ih => rw [(stepAt_effects j _ _ hstep).2.2.2.1, ih]

/-- One step never decreases any agent's `reroute_count`. -/
theorem stepAt_count_mono (i j : Nat) (m m' : EvacuationModel)
    (b b' : EvacuationAgent) (h : stepAt j m = Except.ok m')
    (hb : m.agents.get? i = some b) (hb' : m'.agents.get? i = some b') :
    b.reroute_count ≤ b'.reroute_count := by
  by_cases hij : i = j
  · subst hij
    unfold stepAt at h
    split at h
    next hnone => rw [hb] at hnone; cases hnone
    next a ha =>
      rw [hb] at ha
      have heq : b = a := Option.some.inj ha
      subst heq
      split at h
      next => cases h; rw [hb] at hb'; cases hb'; exact le_refl _
      next =>
        split at h
        next => cases h
        next m1 a1 hgo =>
          cases h
          obtain ⟨hlt, -⟩ := List.get?_eq_some.mp hb
          have hlen : i < m1.agents.length := by
            rw [(stepGo_effects _ _ _ _ _ _ _ hgo).1]; exact hlt
          have hset : (m1.agents.set i a1).get? i = some a1 := by
            rw [List.get?_eq_get (by simpa using hlen)]
            simp [List.get_set_eq]
          rw [show ({ m1 with agents := m1.agents.set i a1 } :
              EvacuationModel).agents = m1.agents.set i a1 from rfl,
            hset] at hb'
          cases hb'
          exact (stepGo_effects _ _ _ _ _ _ _ hgo).2.2.2.2
  · rw [(stepAt_effects j _ _ h).2.2.2.2 i hij, hb] at hb'
    cases hb'
    exact le_refl _

/-- `reroute_count` is monotone along any sequence of steps. -/
theorem reachable_count_mono (m m' : EvacuationModel) (i : Nat)
    (hr : Reachable m m') : ∀ (b b' : EvacuationAgent),
    m.agents.get? i = some b → m'.agents.get? i = some b' →
    b.reroute_count ≤ b'.reroute_count := by
  induction hr with
  | refl =>
    intro b b' hb hb'
    rw [hb] at hb'
    cases hb'
    exact le_refl _
  | tail j hr hstep ih =>
    intro b b' hb hb'
    rename_i m1 m2
    have hlen : i < m1.agents.length := by
      rw [reachable_length _ _ hr]
      exact (List.get?_eq_some.mp hb).1
    obtain ⟨c, hc⟩ : ∃ c, m1.agents.get? i = some c := by
      cases hcase : m1.agents.get? i with
      | none => rw [List.get?_eq_none] at hcase; omega
      | some c => exact ⟨c, rfl⟩
    exact le_trans (ih b c hb hc) (stepAt_count_mono i j m1 m2 c b' hstep hc hb')

/-- C8: after construction every agent's `reroute_count` is exactly 0
(hence at least 0), it never decreases across any sequence of `step()`
calls, and it never exceeds the number of distinct targets configured at
construction. -/
theorem C8_reroute_count_bounds (net0 : Network) (cap : Nat)
    (inp : BuildInput) (m0 m1 m2 : EvacuationModel) (i : Nat)
    (a1 a2 : EvacuationAgent)
    (hb : buildModel net0 cap inp = Except.ok m0)
    (hr1 : Reachable m0 m1) (hr2 : Reachable m1 m2)
    (h1 : m1.agents.get? i = some a1) (h2 : m2.agents.get? i = some a2) :
    0 ≤ a1.reroute_count ∧ a1.reroute_count ≤ a2.reroute_count ∧
    a2.reroute_count ≤ (distinctTargets m0.target_nodes : Int) := by
  obtain ⟨a0, h0⟩ : ∃ a0, m0.agents.get? i = some a0 := by
    have hlen : i < m0.agents.length := by
      rw [← reachable_length _ _ hr1]
      exact (List.get?_eq_some.mp h1).1
    cases hcase : m0.agents.get? i with
    | none => rw [List.get?_eq_none] at hcase; omega
    | some c => exact ⟨c, rfl⟩
  have h00 : a0.reroute_count = 0 :=
    buildModel_counts net0 cap inp m0 hb a0 (List.get?_mem h0)
  refine ⟨?_, ?_, ?_⟩
  · have := reachable_count_mono m0 m1 i hr1 a0 a1 h0 h1
    omega
  · exact reachable_count_mono m1 m2 i hr2 a1 a2 h1 h2
  · have hI : ModelInv (distinctTargets m0.target_nodes) m2 :=
      reachable_inv m1 m2 _ hr2
        (reachable_inv m0 m1 _ hr1 (buildModel_inv net0 cap inp m0 hb))
    exact AgentInv_le _ _ a2 (hI a2 (List.get?_mem h2))

/-- Witness for C8 at the freshly built `zeroM`. -/
theorem C8_reroute_count_bounds_witness :
    0 ≤ (mkActive 0 [0, 5]).reroute_count ∧
    (mkActive 0 [0, 5]).reroute_count ≤ (mkActive 0 [0, 5]).reroute_count ∧
    (mkActive 0 [0, 5]).reroute_count ≤
      (distinctTargets zeroM.target_nodes : Int) :=
  C8_reroute_count_bounds dotNet 1 zeroEdgeInput zeroM zeroM zeroM 0
    (mkActive 0 [0, 5]) (mkActive 0 [0, 5]) (by with_unfolding_all rfl)
    (Reachable.refl zeroM) (Reachable.refl zeroM)
    (by with_unfolding_all decide) (by with_unfolding_all decide)
